import Mathlib

/-!
# A verification development for the web3signer HTTP proxy (`main.go`)

The program is one Go file: `main` reads two environment variables, registers the
`/sign` and `/healthz` handlers and serves.  The handlers are modelled as pure functions
from the request body and the behaviour of the upstream to the response written and the
list of outbound calls made; `main` as the list of things it does before it serves.

Bytes are natural numbers (a Go `string` or `[]byte` is a `List Nat` of values below 256).
The library calls the program makes (`encoding/json`, `net/http`, `io`, `fmt`, `os`) are
modelled after the Go standard library, Go 1.22 or later, on a 64-bit platform:

* `json.NewDecoder(r.Body).Decode` is the scanner of `scanner.go`, run byte by byte until
  the first JSON value is complete, followed by the store into `SignRequest`;
* `json.Marshal` of the payload map writes the members sorted by key;
* the `http.ResponseWriter` is a recorder of what the handler writes to it;
* the upstream is a function from the outbound call to a response or an error.

The file has the definitions first, then lemmas, then one theorem for each claim.
-/

namespace Web3SignerProxy

/-! ## Bytes and UTF-8 -/

/-- A Go `string` or `[]byte`. -/
abbrev Bytes := List Nat

/-- The bytes of an ASCII string literal. -/
def ascii (s : String) : Bytes := s.toList.map Char.toNat

/-- Continuation byte test of `unicode/utf8`: `0x80 ≤ b ≤ 0xBF`. -/
def isCont (b : Nat) : Bool := 0x80 ≤ b && b ≤ 0xBF

/-- The replacement character `utf8.RuneError`, U+FFFD. -/
def runeError : Nat := 0xFFFD

/-- Go `utf8.DecodeRune`: the first rune of `p` and its width in bytes; an invalid or
short encoding gives `(RuneError, 1)`, the empty input `(RuneError, 0)`. -/
def decodeRune (p : Bytes) : Nat × Nat :=
  match p with
  | [] => (runeError, 0)
  | b0 :: p1 =>
    if b0 < 0x80 then (b0, 1)
    else if b0 < 0xC2 then (runeError, 1)
    else if b0 < 0xE0 then
      match p1 with
      | b1 :: _ => if isCont b1 then ((b0 % 0x20) * 0x40 + b1 % 0x40, 2) else (runeError, 1)
      | _ => (runeError, 1)
    else if b0 < 0xF0 then
      match p1 with
      | b1 :: b2 :: _ =>
        let lo := if b0 = 0xE0 then 0xA0 else 0x80
        let hi := if b0 = 0xED then 0x9F else 0xBF
        if lo ≤ b1 && b1 ≤ hi && isCont b2 then
          ((b0 % 0x10) * 0x1000 + (b1 % 0x40) * 0x40 + b2 % 0x40, 3)
        else (runeError, 1)
      | _ => (runeError, 1)
    else if b0 < 0xF5 then
      match p1 with
      | b1 :: b2 :: b3 :: _ =>
        let lo := if b0 = 0xF0 then 0x90 else 0x80
        let hi := if b0 = 0xF4 then 0x8F else 0xBF
        if lo ≤ b1 && b1 ≤ hi && isCont b2 && isCont b3 then
          ((b0 % 0x08) * 0x40000 + (b1 % 0x40) * 0x1000 + (b2 % 0x40) * 0x40 + b3 % 0x40, 4)
        else (runeError, 1)
      | _ => (runeError, 1)
    else (runeError, 1)

/-- Go `utf8.EncodeRune` (`utf8.AppendRune`): surrogates and values above U+10FFFF are
encoded as U+FFFD. -/
def encodeRune (r : Nat) : Bytes :=
  if r < 0x80 then [r]
  else if r < 0x800 then [0xC0 + r / 0x40, 0x80 + r % 0x40]
  else if (0xD800 ≤ r && r < 0xE000) || 0x10FFFF < r then [0xEF, 0xBF, 0xBD]
  else if r < 0x10000 then [0xE0 + r / 0x1000, 0x80 + (r / 0x40) % 0x40, 0x80 + r % 0x40]
  else [0xF0 + r / 0x40000, 0x80 + (r / 0x1000) % 0x40, 0x80 + (r / 0x40) % 0x40, 0x80 + r % 0x40]

/-! ## `encoding/json`: reading one value from the request body -/

/-- A JSON value as the scanner delimits it: a number is its literal, a string (a key
likewise) is the inside of its literal, quotation marks removed and escapes still in place. -/
inductive JSON where
  | null
  | bool (b : Bool)
  | number (lit : Bytes)
  | string (s : Bytes)
  | array (xs : List JSON)
  | object (ms : List (Bytes × JSON))

/-- An entry of the scanner's `parseState` stack (`parseObjectKey`, `parseObjectValue`,
`parseArrayValue`), together with the part of the container read so far. -/
inductive Frame where
  | objectKey (ms : List (Bytes × JSON))
  | objectValue (ms : List (Bytes × JSON)) (key : Bytes)
  | arrayValue (xs : List JSON)

/-- The step functions of `scanner.go`. -/
inductive Step where
  | beginValueOrEmpty | beginValue | beginStringOrEmpty | beginString | endValue
  | inString | inStringEsc | inStringEscU | inStringEscU1 | inStringEscU12 | inStringEscU123
  | neg | s1 | s0 | dot | dot0 | e | eSign | e0
  | t | tr | tru | f | fa | fal | fals | n | nu | nul
  deriving DecidableEq

/-- The scanner: its step function, its `parseState` stack (top first), the bytes of the
literal being read (latest first) and the value that was completed last. -/
structure Scanner where
  step : Step
  parseState : List Frame
  lit : Bytes
  val : JSON

/-- What one byte does to the scanner: go on, end of the top-level value (`scanEnd`; the
flag tells whether the byte belongs to the value), or `scanError`. -/
inductive Scan where
  | more (s : Scanner)
  | done (v : JSON) (consumed : Bool)
  | error

/-- `maxNestingDepth` of `scanner.go`. -/
def maxNestingDepth : Nat := 10000

/-- Go `isSpace`: space, tab, carriage return, line feed. -/
def isSpace (c : Nat) : Bool := c = ' '.toNat || c = '\t'.toNat || c = '\r'.toNat || c = '\n'.toNat

/-- A decimal digit. -/
def isDigit (c : Nat) : Bool := '0'.toNat ≤ c && c ≤ '9'.toNat

/-- A hexadecimal digit, either case. -/
def isHex (c : Nat) : Bool :=
  isDigit c || ('a'.toNat ≤ c && c ≤ 'f'.toNat) || ('A'.toNat ≤ c && c ≤ 'F'.toNat)

/-- The value of a hexadecimal digit. -/
def hexVal (c : Nat) : Nat :=
  if isDigit c then c - '0'.toNat
  else if 'a'.toNat ≤ c && c ≤ 'f'.toNat then c - 'a'.toNat + 10
  else c - 'A'.toNat + 10

/-- Go `getu4`: the rune of a `\uXXXX` escape at the head of `s`, if there is one. -/
def getu4 (s : Bytes) : Option Nat :=
  match s with
  | b :: u :: h1 :: h2 :: h3 :: h4 :: _ =>
    if b = '\\'.toNat && u = 'u'.toNat && isHex h1 && isHex h2 && isHex h3 && isHex h4 then
      some (hexVal h1 * 0x1000 + hexVal h2 * 0x100 + hexVal h3 * 0x10 + hexVal h4)
    else none
  | _ => none

/-- Go `utf16.DecodeRune` on a first half `r1` and what `getu4` found next. -/
def utf16DecodeRune (r1 : Nat) (r2 : Option Nat) : Nat :=
  match r2 with
  | some r2 =>
    if 0xD800 ≤ r1 && r1 < 0xDC00 && 0xDC00 ≤ r2 && r2 < 0xE000 then
      (r1 - 0xD800) * 0x400 + (r2 - 0xDC00) + 0x10000
    else runeError
  | none => runeError

/-- One position of Go `unquoteBytes`: the bytes written for what starts at the head of `s`
and the number of input bytes read.  `s` is the inside of a string literal the scanner has
accepted, so a backslash is followed by a valid escape and the cases in which
`unquoteBytes` gives up (here: nothing written) do not arise. -/
def unquoteAt (s : Bytes) : Bytes × Nat :=
  match s with
  | [] => ([], 0)
  | c :: rest =>
    if c = '\\'.toNat then
      match rest with
      | [] => ([], 1)
      | x :: rest2 =>
        if x = 'u'.toNat then
          match getu4 s with
          | none => ([], 2)
          | some rr =>
            if 0xD800 ≤ rr && rr < 0xE000 then
              let dec := utf16DecodeRune rr (getu4 (rest2.drop 4))
              if dec ≠ runeError then (encodeRune dec, 12) else (encodeRune runeError, 6)
            else (encodeRune rr, 6)
        else if x = '"'.toNat || x = '\\'.toNat || x = '/'.toNat || x = 0x27 then ([x], 2)
        else if x = 'b'.toNat then ([8], 2)
        else if x = 'f'.toNat then ([12], 2)
        else if x = 'n'.toNat then ([10], 2)
        else if x = 'r'.toNat then ([13], 2)
        else if x = 't'.toNat then ([9], 2)
        else ([], 2)
    else if c < 0x80 then ([c], 1)
    else
      let rs := decodeRune s
      (encodeRune rs.1, rs.2)

/-- The loop of `unquoteBytes`: `skip` counts the bytes of the input that the previous
position has already read. -/
def unquoteLoop : Nat → Bytes → Bytes
  | _, [] => []
  | skip + 1, _ :: rest => unquoteLoop skip rest
  | 0, c :: rest => (unquoteAt (c :: rest)).1 ++ unquoteLoop ((unquoteAt (c :: rest)).2 - 1) rest

/-- Go `unquoteBytes` on the inside of a string literal: escapes are replaced and invalid
UTF-8 is coerced to U+FFFD. -/
def unquote (s : Bytes) : Bytes := unquoteLoop 0 s

/-- Go `popParseState` at the end of an object or array: with an empty stack the top-level
value is complete (`readValue` does not wait for a further byte). -/
def popParseState (s : Scanner) (stack : List Frame) (v : JSON) : Scan :=
  match stack with
  | [] => .done v true
  | _ :: _ => .more { s with step := .endValue, parseState := stack, val := v }

/-- Go `pushParseState`: nesting deeper than `maxNestingDepth` is an error. -/
def pushParseState (s : Scanner) (f : Frame) (next : Step) : Scan :=
  if s.parseState.length + 1 ≤ maxNestingDepth then
    .more { s with step := next, parseState := f :: s.parseState }
  else .error

/-- Go `stateEndValue`: the byte after a value.  With an empty stack this is `stateEndTop`,
which reports `scanEnd` whatever the byte is. -/
def stateEndValue (s : Scanner) (c : Nat) : Scan :=
  match s.parseState with
  | [] => .done s.val false
  | ps :: stack =>
    if isSpace c then .more { s with step := .endValue }
    else
      match ps with
      | .objectKey ms =>
        if c = ':'.toNat then
          match s.val with
          | .string k => .more { s with step := .beginValue, parseState := .objectValue ms k :: stack }
          | _ => .error
        else .error
      | .objectValue ms k =>
        if c = ','.toNat then
          .more { s with step := .beginString, parseState := .objectKey (ms ++ [(k, s.val)]) :: stack }
        else if c = '}'.toNat then popParseState s stack (.object (ms ++ [(k, s.val)]))
        else .error
      | .arrayValue xs =>
        if c = ','.toNat then
          .more { s with step := .beginValue, parseState := .arrayValue (xs ++ [s.val]) :: stack }
        else if c = ']'.toNat then popParseState s stack (.array (xs ++ [s.val]))
        else .error

/-- Go `stateBeginValue`. -/
def stateBeginValue (s : Scanner) (c : Nat) : Scan :=
  if isSpace c then .more s
  else if c = '{'.toNat then pushParseState s (.objectKey []) .beginStringOrEmpty
  else if c = '['.toNat then pushParseState s (.arrayValue []) .beginValueOrEmpty
  else if c = '"'.toNat then .more { s with step := .inString, lit := [] }
  else if c = '-'.toNat then .more { s with step := .neg, lit := [c] }
  else if c = '0'.toNat then .more { s with step := .s0, lit := [c] }
  else if c = 't'.toNat then .more { s with step := .t }
  else if c = 'f'.toNat then .more { s with step := .f }
  else if c = 'n'.toNat then .more { s with step := .n }
  else if '1'.toNat ≤ c && c ≤ '9'.toNat then .more { s with step := .s1, lit := [c] }
  else .error

/-- Go `stateBeginString`. -/
def stateBeginString (s : Scanner) (c : Nat) : Scan :=
  if isSpace c then .more s
  else if c = '"'.toNat then .more { s with step := .inString, lit := [] }
  else .error

/-- The end of a number literal: the value is the literal, and the byte is handed to
`stateEndValue`. -/
def endNumber (s : Scanner) (c : Nat) : Scan :=
  stateEndValue { s with val := .number s.lit.reverse } c

/-- Go `state0`: after the integer part of a number. -/
def state0 (s : Scanner) (c : Nat) : Scan :=
  if c = '.'.toNat then .more { s with step := .dot, lit := c :: s.lit }
  else if c = 'e'.toNat || c = 'E'.toNat then .more { s with step := .e, lit := c :: s.lit }
  else endNumber s c

/-- Go `stateESign`: after the sign of an exponent. -/
def stateESign (s : Scanner) (c : Nat) : Scan :=
  if isDigit c then .more { s with step := .e0, lit := c :: s.lit } else .error

/-- One letter of `true`, `false` or `null`. -/
def expect (s : Scanner) (c : Nat) (want : Char) (next : Step) : Scan :=
  if c = want.toNat then .more { s with step := next } else .error

/-- The last letter of `true`, `false` or `null`. -/
def expectLast (s : Scanner) (c : Nat) (want : Char) (v : JSON) : Scan :=
  if c = want.toNat then .more { s with step := .endValue, val := v } else .error

/-- One hexadecimal digit of a `\u` escape. -/
def expectHex (s : Scanner) (c : Nat) (next : Step) : Scan :=
  if isHex c then .more { s with step := next, lit := c :: s.lit } else .error

/-- The scanner's `step` applied to one byte. -/
def stepByte (s : Scanner) (c : Nat) : Scan :=
  match s.step with
  | .beginValueOrEmpty =>
    if isSpace c then .more s
    else if c = ']'.toNat then
      match s.parseState with
      | .arrayValue xs :: stack => popParseState s stack (.array xs)
      | _ => .error
    else stateBeginValue s c
  | .beginValue => stateBeginValue s c
  | .beginStringOrEmpty =>
    if isSpace c then .more s
    else if c = '}'.toNat then
      match s.parseState with
      | .objectKey ms :: stack => popParseState s stack (.object ms)
      | _ => .error
    else stateBeginString s c
  | .beginString => stateBeginString s c
  | .endValue => stateEndValue s c
  | .inString =>
    if c = '"'.toNat then .more { s with step := .endValue, val := .string s.lit.reverse }
    else if c = '\\'.toNat then .more { s with step := .inStringEsc, lit := c :: s.lit }
    else if c < 0x20 then .error
    else .more { s with lit := c :: s.lit }
  | .inStringEsc =>
    if c = 'b'.toNat || c = 'f'.toNat || c = 'n'.toNat || c = 'r'.toNat || c = 't'.toNat
        || c = '\\'.toNat || c = '/'.toNat || c = '"'.toNat then
      .more { s with step := .inString, lit := c :: s.lit }
    else if c = 'u'.toNat then .more { s with step := .inStringEscU, lit := c :: s.lit }
    else .error
  | .inStringEscU => expectHex s c .inStringEscU1
  | .inStringEscU1 => expectHex s c .inStringEscU12
  | .inStringEscU12 => expectHex s c .inStringEscU123
  | .inStringEscU123 => expectHex s c .inString
  | .neg =>
    if c = '0'.toNat then .more { s with step := .s0, lit := c :: s.lit }
    else if '1'.toNat ≤ c && c ≤ '9'.toNat then .more { s with step := .s1, lit := c :: s.lit }
    else .error
  | .s1 => if isDigit c then .more { s with lit := c :: s.lit } else state0 s c
  | .s0 => state0 s c
  | .dot => if isDigit c then .more { s with step := .dot0, lit := c :: s.lit } else .error
  | .dot0 =>
    if isDigit c then .more { s with lit := c :: s.lit }
    else if c = 'e'.toNat || c = 'E'.toNat then .more { s with step := .e, lit := c :: s.lit }
    else endNumber s c
  | .e =>
    if c = '+'.toNat || c = '-'.toNat then .more { s with step := .eSign, lit := c :: s.lit }
    else stateESign s c
  | .eSign => stateESign s c
  | .e0 => if isDigit c then .more { s with lit := c :: s.lit } else endNumber s c
  | .t => expect s c 'r' .tr
  | .tr => expect s c 'u' .tru
  | .tru => expectLast s c 'e' (.bool true)
  | .f => expect s c 'a' .fa
  | .fa => expect s c 'l' .fal
  | .fal => expect s c 's' .fals
  | .fals => expectLast s c 'e' (.bool false)
  | .n => expect s c 'u' .nu
  | .nu => expect s c 'l' .nul
  | .nul => expectLast s c 'l' .null

/-- The scanner after `reset`. -/
def Scanner.reset : Scanner := { step := .beginValue, parseState := [], lit := [], val := .null }

/-- The loop of `Decoder.readValue`: feed bytes to the scanner until the first value is
complete.  At the end of the input a space is fed; no value then means `io.EOF` or
`io.ErrUnexpectedEOF`.  The result is the value and the bytes left unread. -/
def scanValue : Scanner → Bytes → Option (JSON × Bytes)
  | s, [] =>
    match stepByte s ' '.toNat with
    | .done v _ => some (v, [])
    | _ => none
  | s, c :: rest =>
    match stepByte s c with
    | .more s1 => scanValue s1 rest
    | .done v consumed => some (v, if consumed then rest else c :: rest)
    | .error => none

/-- Go `Decoder.readValue` on a fresh decoder: the first JSON value of the body. -/
def readValue (body : Bytes) : Option (JSON × Bytes) := scanValue Scanner.reset body

/-- Go `json.Valid`: the whole input is one JSON value, surrounded by white space only. -/
def Valid (data : Bytes) : Bool :=
  match readValue data with
  | some (_, rest) => rest.all isSpace
  | none => false

/-! ## `encoding/json`: storing a value into `SignRequest` -/

/-- The anonymous struct type of the field `Params` of `SignRequest`. -/
structure SignParams where
  Address : Bytes
  Data : Bytes
  Input : Bytes
  deriving DecidableEq

/-- The inbound request (`type SignRequest struct`); `ID` is a Go `int`. -/
structure SignRequest where
  JSONRPC : Bytes
  Method : Bytes
  Params : SignParams
  ID : Int
  deriving DecidableEq

/-- The zero value of `SignRequest` (`var req SignRequest`). -/
def SignRequest.zero : SignRequest :=
  { JSONRPC := [], Method := [], Params := { Address := [], Data := [], Input := [] }, ID := 0 }

/-- Why `Decode` failed: no complete well-formed value could be read (a `SyntaxError`,
`io.EOF` or `io.ErrUnexpectedEOF`), or a value did not fit its field
(`UnmarshalTypeError`). -/
inductive DecodeError where
  | invalid
  | typeMismatch
  deriving DecidableEq

/-- One rune of Go `foldName`, as far as a comparison with ASCII names can tell: the bytes
written for the rune at the head of `s` and its width.  ASCII letters are upper-cased, and
the two runes whose case folding is an ASCII letter, U+017F (long s, bytes C5 BF) and U+212A
(Kelvin sign, bytes E2 84 AA), become `S` and `K`.  Every other rune has a non-ASCII
folding and is kept. -/
def foldAt (s : Bytes) : Bytes × Nat :=
  match s with
  | [] => ([], 0)
  | c :: rest =>
    if c < 0x80 then ([if 'a'.toNat ≤ c && c ≤ 'z'.toNat then c - 32 else c], 1)
    else if c = 0xC5 && rest.take 1 = [0xBF] then (['S'.toNat], 2)
    else if c = 0xE2 && rest.take 2 = [0x84, 0xAA] then (['K'.toNat], 3)
    else ([c], 1)

/-- The loop of `foldName`; `skip` counts the bytes the previous rune has already read. -/
def foldLoop : Nat → Bytes → Bytes
  | _, [] => []
  | skip + 1, _ :: rest => foldLoop skip rest
  | 0, c :: rest => (foldAt (c :: rest)).1 ++ foldLoop ((foldAt (c :: rest)).2 - 1) rest

/-- Go `foldName` (see `foldAt`). -/
def foldName (s : Bytes) : Bytes := foldLoop 0 s

/-- The field an unquoted object key names (`byExactName`, then `byFoldedName`). -/
def findField {α : Type} (fields : List (Bytes × α)) (key : Bytes) : Option α :=
  match fields.find? (fun f => f.1 = key) with
  | some f => some f.2
  | none => (fields.find? (fun f => foldName f.1 = foldName key)).map (fun f => f.2)

/-- Go `strconv.ParseUint(s, 10, 64)` before its range check: `s` is one or more decimal
digits. -/
def parseUint (s : Bytes) : Option Nat :=
  if s ≠ [] && s.all isDigit then some (s.foldl (fun n c => 10 * n + (c - '0'.toNat)) 0) else none

/-- Go `strconv.ParseInt(s, 10, 64)`: an optional sign and decimal digits, in the range of
`int64`. -/
def parseInt (s : Bytes) : Option Int :=
  match s with
  | [] => none
  | c :: rest =>
    match parseUint (if c = '-'.toNat || c = '+'.toNat then rest else s) with
    | none => none
    | some un =>
      if c = '-'.toNat then (if un ≤ 2 ^ 63 then some (-(un : Int)) else none)
      else (if un < 2 ^ 63 then some (un : Int) else none)

/-- Go `literalStore` and `value` for a field of kind `string`: the new value of the field
and whether an `UnmarshalTypeError` is saved.  A string literal is unquoted; `null` leaves
the field as it is. -/
def storeString (v : JSON) (old : Bytes) : Bytes × Bool :=
  match v with
  | .string s => (unquote s, false)
  | .null => (old, false)
  | _ => (old, true)

/-- Go `literalStore` and `value` for a field of kind `int`. -/
def storeInt (v : JSON) (old : Int) : Int × Bool :=
  match v with
  | .number lit =>
    match parseInt lit with
    | some n => (n, false)
    | none => (old, true)
  | .null => (old, false)
  | _ => (old, true)

/-- The fields of the anonymous `Params` struct. -/
inductive ParamsField where
  | address | data | input

/-- The JSON names of the fields of `Params`. -/
def paramsFields : List (Bytes × ParamsField) :=
  [(ascii "address", .address), (ascii "data", .data), (ascii "input", .input)]

/-- One member of the `params` object. -/
def storeParamsMember (acc : SignParams × Bool) (m : Bytes × JSON) : SignParams × Bool :=
  match findField paramsFields (unquote m.1) with
  | some .address => ({ acc.1 with Address := (storeString m.2 acc.1.Address).1 },
      acc.2 || (storeString m.2 acc.1.Address).2)
  | some .data => ({ acc.1 with Data := (storeString m.2 acc.1.Data).1 },
      acc.2 || (storeString m.2 acc.1.Data).2)
  | some .input => ({ acc.1 with Input := (storeString m.2 acc.1.Input).1 },
      acc.2 || (storeString m.2 acc.1.Input).2)
  | none => acc

/-- Go `decodeState.value` for the field `Params`: an object is stored member by member,
unknown keys are skipped, `null` changes nothing, anything else is a type error. -/
def storeParams (v : JSON) (old : SignParams) : SignParams × Bool :=
  match v with
  | .object ms => ms.foldl storeParamsMember (old, false)
  | .null => (old, false)
  | _ => (old, true)

/-- The fields of `SignRequest`. -/
inductive RequestField where
  | jsonrpc | method | params | id

/-- The JSON names of the fields of `SignRequest`. -/
def requestFields : List (Bytes × RequestField) :=
  [(ascii "jsonrpc", .jsonrpc), (ascii "method", .method), (ascii "params", .params),
   (ascii "id", .id)]

/-- One member of the request object. -/
def storeRequestMember (acc : SignRequest × Bool) (m : Bytes × JSON) : SignRequest × Bool :=
  match findField requestFields (unquote m.1) with
  | some .jsonrpc => ({ acc.1 with JSONRPC := (storeString m.2 acc.1.JSONRPC).1 },
      acc.2 || (storeString m.2 acc.1.JSONRPC).2)
  | some .method => ({ acc.1 with Method := (storeString m.2 acc.1.Method).1 },
      acc.2 || (storeString m.2 acc.1.Method).2)
  | some .params => ({ acc.1 with Params := (storeParams m.2 acc.1.Params).1 },
      acc.2 || (storeParams m.2 acc.1.Params).2)
  | some .id => ({ acc.1 with ID := (storeInt m.2 acc.1.ID).1 },
      acc.2 || (storeInt m.2 acc.1.ID).2)
  | none => acc

/-- Go `decodeState.unmarshal` into a `*SignRequest`: the request after the value is stored
and whether an error was saved. -/
def unmarshal (v : JSON) (req : SignRequest) : SignRequest × Bool :=
  match v with
  | .object ms => ms.foldl storeRequestMember (req, false)
  | .null => (req, false)
  | _ => (req, true)

/-- The call `json.NewDecoder(r.Body).Decode(&req)` on a zero `req`: read the first JSON
value of the body and store it.  Bytes after that value are not looked at. -/
def Decode (body : Bytes) : Except DecodeError SignRequest :=
  match readValue body with
  | none => .error .invalid
  | some (v, _) =>
    if (unmarshal v SignRequest.zero).2 then .error .typeMismatch
    else .ok (unmarshal v SignRequest.zero).1

/-! ## `encoding/json`: `Marshal` of the outbound payload -/

/-- The dynamic values the handler stores in its `map[string]interface{}`: a `string`, an
`int`, or a `[]interface{}`. -/
inductive GoValue where
  | string (s : Bytes)
  | int (n : Int)
  | slice (xs : List GoValue)

/-- The table `hex` of `encoding/json`: a lower-case hexadecimal digit. -/
def hexDigit (n : Nat) : Nat := if n < 10 then '0'.toNat + n else 'a'.toNat + (n - 10)

/-- The table `htmlSafeSet` of `encoding/json`: the ASCII bytes written as they are. -/
def htmlSafe (b : Nat) : Bool :=
  0x20 ≤ b && b < 0x80 && b ≠ '"'.toNat && b ≠ '&'.toNat && b ≠ '<'.toNat && b ≠ '>'.toNat
    && b ≠ '\\'.toNat

/-- One position of Go `appendString` with `escapeHTML` set: the bytes written for what
starts at the head of `s` and the number of input bytes read. -/
def appendStringAt (s : Bytes) : Bytes × Nat :=
  match s with
  | [] => ([], 0)
  | b :: _ =>
    if b < 0x80 then
      if htmlSafe b then ([b], 1)
      else if b = '\\'.toNat || b = '"'.toNat then (['\\'.toNat, b], 1)
      else if b = 8 then (ascii "\\b", 1)
      else if b = 12 then (ascii "\\f", 1)
      else if b = 10 then (ascii "\\n", 1)
      else if b = 13 then (ascii "\\r", 1)
      else if b = 9 then (ascii "\\t", 1)
      else (ascii "\\u00" ++ [hexDigit (b / 16), hexDigit (b % 16)], 1)
    else if (decodeRune s).1 = runeError && (decodeRune s).2 = 1 then (ascii "\\ufffd", 1)
    else if (decodeRune s).1 = 0x2028 || (decodeRune s).1 = 0x2029 then
      (ascii "\\u202" ++ [hexDigit ((decodeRune s).1 % 16)], (decodeRune s).2)
    else (s.take (decodeRune s).2, (decodeRune s).2)

/-- The loop of `appendString`; `skip` counts the bytes the previous rune has already read. -/
def appendStringLoop : Nat → Bytes → Bytes
  | _, [] => []
  | skip + 1, _ :: rest => appendStringLoop skip rest
  | 0, c :: rest =>
    (appendStringAt (c :: rest)).1 ++ appendStringLoop ((appendStringAt (c :: rest)).2 - 1) rest

/-- Go `appendString`: a string as a JSON string literal. -/
def appendString (s : Bytes) : Bytes := '"'.toNat :: appendStringLoop 0 s ++ ['"'.toNat]

/-- Go `strconv.AppendInt(_, n, 10)`: a decimal integer. -/
def formatInt (n : Int) : Bytes :=
  if n < 0 then '-'.toNat :: (Nat.toDigits 10 n.natAbs).map Char.toNat
  else (Nat.toDigits 10 n.natAbs).map Char.toNat

mutual
/-- The encoder of `json.Marshal` on a value of the payload. -/
def marshalValue : GoValue → Bytes
  | .string s => appendString s
  | .int n => formatInt n
  | .slice xs => '['.toNat :: marshalElems xs ++ [']'.toNat]
/-- The elements of a slice, separated by commas. -/
def marshalElems : List GoValue → Bytes
  | [] => []
  | x :: rest =>
    match rest with
    | [] => marshalValue x
    | _ :: _ => marshalValue x ++ ','.toNat :: marshalElems rest
end

/-- Go `strings.Compare(a, b) ≤ 0`: byte-wise lexicographic order. -/
def keyLe : Bytes → Bytes → Bool
  | [], _ => true
  | _ :: _, [] => false
  | a :: as, b :: bs => a < b || (a = b && keyLe as bs)

/-- Insert an entry into a list sorted by key. -/
def insertEntry (e : Bytes × GoValue) : List (Bytes × GoValue) → List (Bytes × GoValue)
  | [] => [e]
  | x :: rest => if keyLe e.1 x.1 then e :: x :: rest else x :: insertEntry e rest

/-- The entries of a map in the order `json.Marshal` writes them: sorted by key. -/
def sortEntries : List (Bytes × GoValue) → List (Bytes × GoValue)
  | [] => []
  | e :: rest => insertEntry e (sortEntries rest)

/-- The members of an object, separated by commas. -/
def marshalMembers : List (Bytes × GoValue) → Bytes
  | [] => []
  | e :: rest =>
    match rest with
    | [] => appendString e.1 ++ ':'.toNat :: marshalValue e.2
    | _ :: _ => appendString e.1 ++ ':'.toNat :: marshalValue e.2 ++ ','.toNat :: marshalMembers rest

/-- Go `json.Marshal` on a `map[string]interface{}` given by its entries: a JSON object
whose members are sorted by key. -/
def Marshal (m : List (Bytes × GoValue)) : Bytes :=
  '{'.toNat :: marshalMembers (sortEntries m) ++ ['}'.toNat]

/-! ## `net/http` and `io` -/

/-- The `http.ResponseWriter` of one request, as a recorder: the header map, the status
code sent by `WriteHeader` (if any) and the body written. -/
structure ResponseWriter where
  header : List (Bytes × Bytes)
  status : Option Nat
  body : Bytes
  deriving DecidableEq

/-- A fresh writer. -/
def ResponseWriter.new : ResponseWriter := { header := [], status := none, body := [] }

/-- Go `Header.Del`. -/
def ResponseWriter.delHeader (w : ResponseWriter) (key : Bytes) : ResponseWriter :=
  { w with header := w.header.filter (fun h => h.1 ≠ key) }

/-- Go `Header.Set`. -/
def ResponseWriter.setHeader (w : ResponseWriter) (key value : Bytes) : ResponseWriter :=
  { w with header := w.header.filter (fun h => h.1 ≠ key) ++ [(key, value)] }

/-- Go `ResponseWriter.WriteHeader`: the first call sends the status code, later calls are
ignored. -/
def ResponseWriter.WriteHeader (w : ResponseWriter) (code : Nat) : ResponseWriter :=
  match w.status with
  | none => { w with status := some code }
  | some _ => w

/-- Go `ResponseWriter.Write`: sends status 200 first if no status was sent. -/
def ResponseWriter.Write (w : ResponseWriter) (p : Bytes) : ResponseWriter :=
  { w.WriteHeader 200 with body := (w.WriteHeader 200).body ++ p }

/-- Go `http.Error`: a plain-text reply; the message is written with `fmt.Fprintln`, that
is, followed by a line feed. -/
def Error (w : ResponseWriter) (error : Bytes) (code : Nat) : ResponseWriter :=
  ((((w.delHeader (ascii "Content-Length")).setHeader (ascii "Content-Type")
    (ascii "text/plain; charset=utf-8")).setHeader (ascii "X-Content-Type-Options")
    (ascii "nosniff")).WriteHeader code).Write (error ++ ascii "\n")

/-- The status code the caller receives. -/
def ResponseWriter.code (w : ResponseWriter) : Nat := w.status.getD 200

/-- The value of a response header, if the handler has set it. -/
def ResponseWriter.get (w : ResponseWriter) (key : Bytes) : Option Bytes :=
  (w.header.find? (fun h => h.1 = key)).map (fun h => h.2)

/-- A response body (`resp.Body`) as its reader delivers it: the chunks that successive
`Read` calls return, and whether the stream then ends with an error instead of `io.EOF`. -/
structure Body where
  chunks : List Bytes
  failed : Bool
  deriving DecidableEq

/-- All bytes the body delivers. -/
def Body.bytes (b : Body) : Bytes := b.chunks.flatten

/-- An HTTP response obtained from the upstream (`*http.Response`). -/
structure UpstreamResponse where
  StatusCode : Nat
  Body : Body
  deriving DecidableEq

/-- A call the proxy makes to the upstream: `http.Post(url, contentType, body)`, or
`client.Get(url)` on a client with a timeout in seconds. -/
inductive OutboundCall where
  | post (url contentType body : Bytes)
  | get (url : Bytes) (timeout : Nat)
  deriving DecidableEq

/-- The upstream and the network as the proxy sees them: what a call returns, either a
response or an error (connection refused, DNS failure, timeout). -/
abbrev Upstream := OutboundCall → Except Bytes UpstreamResponse

/-- The loop of Go `io.Copy(w, resp.Body)`: every chunk read is written; a `Read` that
returns no bytes writes nothing. -/
def ioCopy (w : ResponseWriter) : List Bytes → ResponseWriter
  | [] => w
  | p :: rest => ioCopy (if 0 < p.length then w.Write p else w) rest

/-- What serving one request did: the response written and the outbound calls made, in
order. -/
structure Served where
  w : ResponseWriter
  calls : List OutboundCall
  deriving DecidableEq

/-! ## The program -/

/-- The `payload` map of the `/sign` handler, entry by entry as the source writes it. -/
def payload (req : SignRequest) : List (Bytes × GoValue) :=
  [(ascii "jsonrpc", .string (ascii "2.0")),
   (ascii "method", .string (ascii "eth_sign")),
   (ascii "params", .slice [.string req.Params.Address, .string req.Params.Input]),
   (ascii "id", .int req.ID)]

/-- The `/sign` handler of `main`, for the request body `body`. -/
def signHandler (web3SignerURL : Bytes) (upstream : Upstream) (body : Bytes) : Served :=
  match Decode body with
  | .error _ => { w := Error .new (ascii "invalid JSON") 400, calls := [] }
  | .ok req =>
    if req.Params.Input = [] then
      { w := Error .new (ascii "missing input field") 400, calls := [] }
    else
      match upstream (.post web3SignerURL (ascii "application/json") (Marshal (payload req))) with
      | .error _ =>
        { w := Error .new (ascii "failed to contact web3signer") 502,
          calls := [.post web3SignerURL (ascii "application/json") (Marshal (payload req))] }
      | .ok resp =>
        { w := ioCopy
            ((ResponseWriter.new.setHeader (ascii "Content-Type")
              (ascii "application/json")).WriteHeader resp.StatusCode) resp.Body.chunks,
          calls := [.post web3SignerURL (ascii "application/json") (Marshal (payload req))] }

/-- The `/healthz` handler of `main`. -/
def healthzHandler (web3SignerURL : Bytes) (upstream : Upstream) : Served :=
  match upstream (.get (web3SignerURL ++ ascii "/upcheck") 2) with
  | .error _ =>
    { w := Error .new (ascii "unhealthy") 503,
      calls := [.get (web3SignerURL ++ ascii "/upcheck") 2] }
  | .ok resp =>
    if resp.StatusCode ≠ 200 then
      { w := Error .new (ascii "unhealthy") 503,
        calls := [.get (web3SignerURL ++ ascii "/upcheck") 2] }
    else
      { w := (ResponseWriter.new.WriteHeader 200).Write (ascii "ok"),
        calls := [.get (web3SignerURL ++ ascii "/upcheck") 2] }

/-- A handler registered on the default mux, as a function of the upstream and the request
body. -/
abbrev Handler := Upstream → Bytes → Served

/-- What `main` does, in order. -/
inductive Event where
  | panic (msg : Bytes)
  | info (msg : Bytes) (attrs : List (Bytes × Bytes))
  | handleFunc (pattern : Bytes)
  | listenAndServe (addr : Bytes)
  deriving DecidableEq

/-- The process after `main` has run up to its last call: the events so far, the handlers
registered with `http.HandleFunc`, and the address given to `http.ListenAndServe` if that
call was reached. -/
structure Process where
  events : List Event
  mux : List (Bytes × Handler)
  listening : Option Bytes

/-- Go `os.Getenv`: the value of the variable, empty when it is not set. -/
def Getenv (env : Bytes → Option Bytes) (key : Bytes) : Bytes := (env key).getD []

/-- The port `main` settles on. -/
def resolvePort (env : Bytes → Option Bytes) : Bytes :=
  if Getenv env (ascii "PORT") = [] then ascii "9000" else Getenv env (ascii "PORT")

/-- The function `main`, run in the environment `env`. -/
def main (env : Bytes → Option Bytes) : Process :=
  if Getenv env (ascii "WEB3SIGNER_URL") = [] then
    { events := [.panic (ascii "WEB3SIGNER_URL environment variable is not set")],
      mux := [], listening := none }
  else
    { events :=
        (if Getenv env (ascii "PORT") = [] then
          [.info (ascii "PORT environment variable not set, defaulting to 9000") []] else [])
        ++ [.handleFunc (ascii "/sign"), .handleFunc (ascii "/healthz"),
            .info (ascii "starting web3signer proxy")
              [(ascii "port", resolvePort env),
               (ascii "web3signerURL", Getenv env (ascii "WEB3SIGNER_URL"))],
            .listenAndServe (ascii ":" ++ resolvePort env)],
      mux := [(ascii "/sign", signHandler (Getenv env (ascii "WEB3SIGNER_URL"))),
              (ascii "/healthz", fun upstream _ =>
                healthzHandler (Getenv env (ascii "WEB3SIGNER_URL")) upstream)],
      listening := some (ascii ":" ++ resolvePort env) }

/-- The value a map holds under a key. -/
def lookup (m : List (Bytes × GoValue)) (key : Bytes) : Option GoValue :=
  (m.find? (fun e => e.1 = key)).map (fun e => e.2)

/-! ## Concrete requests, upstreams and environments -/

/-- The inbound body of Scenario A. -/
def scenarioA : Bytes :=
  ascii ("\x7b\"jsonrpc\":\"2.0\",\"method\":\"account_signTypedData\"," ++
    "\"params\":\x7b\"address\":\"0xabc\",\"input\":\"0xdead\"\x7d,\"id\":7\x7d")

/-- The request Scenario A decodes to. -/
def scenarioARequest : SignRequest :=
  { JSONRPC := ascii "2.0", Method := ascii "account_signTypedData",
    Params := { Address := ascii "0xabc", Data := [], Input := ascii "0xdead" }, ID := 7 }

/-- A body with the same address, input and id as Scenario A and another protocol tag,
method and `data`. -/
def scenarioAVariant : Bytes :=
  ascii ("\x7b\"id\":7,\"params\":\x7b\"data\":\"0x00\",\"input\":\"0xdead\",\"address\":\"0xabc\"\x7d," ++
    "\"method\":\"eth_call\",\"jsonrpc\":\"1.0\"\x7d")

/-- The request `scenarioAVariant` decodes to. -/
def scenarioAVariantRequest : SignRequest :=
  { JSONRPC := ascii "1.0", Method := ascii "eth_call",
    Params := { Address := ascii "0xabc", Data := ascii "0x00", Input := ascii "0xdead" },
    ID := 7 }

/-- A body without `params.input`. -/
def noInputBody : Bytes :=
  ascii "\x7b\"jsonrpc\":\"2.0\",\"method\":\"eth_sign\",\"params\":\x7b\"address\":\"0xabc\"\x7d,\"id\":7\x7d"

/-- The request `noInputBody` decodes to. -/
def noInputRequest : SignRequest :=
  { JSONRPC := ascii "2.0", Method := ascii "eth_sign",
    Params := { Address := ascii "0xabc", Data := [], Input := [] }, ID := 7 }

/-- A body whose `id` is a string. -/
def stringIdBody : Bytes :=
  ascii "\x7b\"params\":\x7b\"address\":\"0xabc\",\"input\":\"0xdead\"\x7d,\"id\":\"7\"\x7d"

/-- A complete request object followed by bytes that are not JSON. -/
def trailingBody : Bytes :=
  ascii "\x7b\"params\":\x7b\"address\":\"0xabc\",\"input\":\"0xdead\"\x7d,\"id\":7\x7d this is not JSON"

/-- The request `trailingBody` decodes to. -/
def trailingRequest : SignRequest :=
  { JSONRPC := [], Method := [],
    Params := { Address := ascii "0xabc", Data := [], Input := ascii "0xdead" }, ID := 7 }

/-- A body whose `id` is `null`. -/
def nullIdBody : Bytes :=
  ascii "\x7b\"params\":\x7b\"address\":\"0xabc\",\"input\":\"0xdead\"\x7d,\"id\":null\x7d"

/-- The upstream endpoint used in the examples. -/
def exampleURL : Bytes := ascii "http://signer:9000"

/-- An upstream that cannot be reached. -/
def unreachable : Upstream := fun _ => .error (ascii "dial tcp: connection refused")

/-- An upstream that answers every call with the given status and body. -/
def answering (status : Nat) (chunks : List Bytes) : Upstream :=
  fun _ => .ok { StatusCode := status, Body := { chunks := chunks, failed := false } }

/-- An environment with the upstream endpoint set and no port. -/
def envURLOnly : Bytes → Option Bytes :=
  fun key => if key = ascii "WEB3SIGNER_URL" then some exampleURL else none

/-- An environment with the upstream endpoint and the port set. -/
def envURLAndPort : Bytes → Option Bytes :=
  fun key =>
    if key = ascii "WEB3SIGNER_URL" then some exampleURL
    else if key = ascii "PORT" then some (ascii "8545") else none

/-- An environment in which nothing is set. -/
def envEmpty : Bytes → Option Bytes := fun _ => none

/-! ## Notions used in the statements -/

/-- A Unicode scalar value: a code point up to U+10FFFF that is not a surrogate. -/
def isScalar (r : Nat) : Prop := (r < 0xD800 ∨ 0xE000 ≤ r) ∧ r ≤ 0x10FFFF

/-- Valid UTF-8: the encodings of Unicode scalar values, one after the other. -/
inductive ValidUTF8 : Bytes → Prop where
  | nil : ValidUTF8 []
  | rune (r : Nat) (rest : Bytes) : isScalar r → ValidUTF8 rest → ValidUTF8 (encodeRune r ++ rest)

/-- The scanner, inside a string literal, reads `e` and is inside the literal again, with
`e` added to the literal it has read. -/
def StaysInString (e : Bytes) : Prop :=
  ∀ (σ : Scanner) (rest : Bytes), σ.step = .inString →
    scanValue σ (e ++ rest) = scanValue { σ with lit := e.reverse ++ σ.lit } rest

/-- What `Decode` guarantees of a request: its strings are valid UTF-8 and its id is in the
range of a 64-bit `int`. -/
def SignRequest.WellFormed (req : SignRequest) : Prop :=
  ValidUTF8 req.JSONRPC ∧ ValidUTF8 req.Method ∧ ValidUTF8 req.Params.Address ∧
  ValidUTF8 req.Params.Data ∧ ValidUTF8 req.Params.Input ∧
  -(2 : Int) ^ 63 ≤ req.ID ∧ req.ID < (2 : Int) ^ 63

/-- A JSON value fits a field of kind `string`: a string literal or `null`. -/
def fitsString : JSON → Bool
  | .string _ => true
  | .null => true
  | _ => false

/-- A JSON value fits a field of kind `int`: `null`, or a number literal that is a decimal
integer in the range of a 64-bit `int`. -/
def fitsInt : JSON → Bool
  | .number lit => (parseInt lit).isSome
  | .null => true
  | _ => false

/-- A member of the `params` object fits: its key names no field, or its value fits the
string field the key names. -/
def paramsMemberFits (m : Bytes × JSON) : Bool :=
  match findField paramsFields (unquote m.1) with
  | some _ => fitsString m.2
  | none => true

/-- A JSON value fits the field `params`: `null`, or an object all of whose members fit. -/
def fitsParams : JSON → Bool
  | .object ms => ms.all paramsMemberFits
  | .null => true
  | _ => false

/-- A member of the request object fits: its key names no field, or its value fits the
field the key names. -/
def requestMemberFits (m : Bytes × JSON) : Bool :=
  match findField requestFields (unquote m.1) with
  | some .jsonrpc => fitsString m.2
  | some .method => fitsString m.2
  | some .params => fitsParams m.2
  | some .id => fitsInt m.2
  | none => true

/-- The shape of an inbound sign request, on the JSON value: the value is `null`, or an
object in which every member whose key names a field (`jsonrpc`, `method`, `params`, `id`;
inside `params`: `address`, `data`, `input`) holds `null` or a value of the type of that
field. -/
def fitsSignRequest : JSON → Bool
  | .object ms => ms.all requestMemberFits
  | .null => true
  | _ => false

/-- The scanner is inside a number literal. -/
def Step.inNumber : Step → Bool
  | .neg | .s1 | .s0 | .dot | .dot0 | .e | .eSign | .e0 => true
  | _ => false

/-- What `Decode` makes of the outcome of `readValue`, the kind of error left out. -/
def decodeValue (r : Option (JSON × Bytes)) : Option SignRequest :=
  match r with
  | none => none
  | some (v, _) =>
    if (unmarshal v SignRequest.zero).2 then none else some (unmarshal v SignRequest.zero).1

end Web3SignerProxy

/-! ## Lemmas on the response writer and the copy loop -/

namespace Web3SignerProxy

theorem Write_status_of_sent (w : ResponseWriter) (p : Bytes) (c : Nat) (h : w.status = some c) :
    (w.Write p).status = some c := by
  simp [ResponseWriter.Write, ResponseWriter.WriteHeader, h]

theorem Write_body_of_sent (w : ResponseWriter) (p : Bytes) (c : Nat) (h : w.status = some c) :
    (w.Write p).body = w.body ++ p := by
  simp [ResponseWriter.Write, ResponseWriter.WriteHeader, h]

theorem Write_header (w : ResponseWriter) (p : Bytes) : (w.Write p).header = w.header := by
  unfold ResponseWriter.Write ResponseWriter.WriteHeader
  cases w.status <;> rfl

theorem ioCopy_status (chunks : List Bytes) (w : ResponseWriter) (c : Nat)
    (h : w.status = some c) : (ioCopy w chunks).status = some c := by
  induction chunks generalizing w with
  | nil => simpa [ioCopy] using h
  | cons p rest ih =>
    simp only [ioCopy]
    apply ih
    split
    · exact Write_status_of_sent w p c h
    · exact h

theorem ioCopy_body (chunks : List Bytes) (w : ResponseWriter) (c : Nat)
    (h : w.status = some c) : (ioCopy w chunks).body = w.body ++ chunks.flatten := by
  induction chunks generalizing w with
  | nil => simp [ioCopy]
  | cons p rest ih =>
    simp only [ioCopy]
    by_cases hp : 0 < p.length
    · rw [if_pos hp, ih _ (Write_status_of_sent w p c h), Write_body_of_sent w p c h]
      simp [List.append_assoc]
    · rw [if_neg hp, ih _ h]
      have : p = [] := by
        cases p with
        | nil => rfl
        | cons a as => simp at hp
      simp [this]

/-! ## Lemmas on the `/sign` handler -/

theorem signHandler_of_error (url : Bytes) (upstream : Upstream) (body : Bytes) (e : DecodeError)
    (h : Decode body = .error e) :
    signHandler url upstream body = { w := Error .new (ascii "invalid JSON") 400, calls := [] } := by
  simp only [signHandler, h]

theorem signHandler_of_empty (url : Bytes) (upstream : Upstream) (body : Bytes) (req : SignRequest)
    (h : Decode body = .ok req) (hinput : req.Params.Input = []) :
    signHandler url upstream body =
      { w := Error .new (ascii "missing input field") 400, calls := [] } := by
  simp only [signHandler, h, hinput, if_true]

theorem signHandler_of_input (url : Bytes) (upstream : Upstream) (body : Bytes) (req : SignRequest)
    (h : Decode body = .ok req) (hinput : req.Params.Input ≠ []) :
    signHandler url upstream body =
      match upstream (.post url (ascii "application/json") (Marshal (payload req))) with
      | .error _ =>
        { w := Error .new (ascii "failed to contact web3signer") 502,
          calls := [.post url (ascii "application/json") (Marshal (payload req))] }
      | .ok resp =>
        { w := ioCopy
            ((ResponseWriter.new.setHeader (ascii "Content-Type")
              (ascii "application/json")).WriteHeader resp.StatusCode) resp.Body.chunks,
          calls := [.post url (ascii "application/json") (Marshal (payload req))] } := by
  simp only [signHandler, h, if_neg hinput]

theorem signHandler_calls_of_input (url : Bytes) (upstream : Upstream) (body : Bytes)
    (req : SignRequest) (h : Decode body = .ok req) (hinput : req.Params.Input ≠ []) :
    (signHandler url upstream body).calls =
      [.post url (ascii "application/json") (Marshal (payload req))] := by
  rw [signHandler_of_input url upstream body req h hinput]
  cases upstream (.post url (ascii "application/json") (Marshal (payload req))) <;> rfl

theorem Marshal_payload (req : SignRequest) : Marshal (payload req) =
    ascii "\x7b\"id\":" ++ formatInt req.ID ++
    ascii ",\"jsonrpc\":\"2.0\",\"method\":\"eth_sign\",\"params\":[" ++
    appendString req.Params.Address ++ ascii "," ++ appendString req.Params.Input ++
    ascii "]\x7d" := by
  have h : Marshal (payload req) = '{'.toNat :: ((ascii "\"id\"" ++ ':'.toNat :: formatInt req.ID
      ++ ','.toNat :: (ascii "\"jsonrpc\"" ++ ':'.toNat :: ascii "\"2.0\""
      ++ ','.toNat :: (ascii "\"method\"" ++ ':'.toNat :: ascii "\"eth_sign\""
      ++ ','.toNat :: (ascii "\"params\"" ++ ':'.toNat :: ('['.toNat ::
        (appendString req.Params.Address ++ ','.toNat :: appendString req.Params.Input)
        ++ [']'.toNat]))))) ++ ['}'.toNat]) := by rfl
  rw [h]
  simp [ascii, List.append_assoc]

theorem Decode_scenarioA : Decode scenarioA = .ok scenarioARequest := by rfl

theorem Decode_scenarioAVariant : Decode scenarioAVariant = .ok scenarioAVariantRequest := by rfl

theorem Decode_noInputBody : Decode noInputBody = .ok noInputRequest := by rfl

theorem Decode_trailingBody : Decode trailingBody = .ok trailingRequest := by rfl

end Web3SignerProxy

/-! ## Lemmas on UTF-8, string literals and numbers -/

namespace Web3SignerProxy

theorem encodeRune_of_lt_0x80 (r : Nat) (h : r < 0x80) : encodeRune r = [r] := by
  simp [encodeRune, h]

theorem encodeRune_of_lt_0x800 (r : Nat) (h1 : ¬ r < 0x80) (h2 : r < 0x800) :
    encodeRune r = [0xC0 + r / 0x40, 0x80 + r % 0x40] := by
  simp [encodeRune, h1, h2]

theorem encodeRune_of_lt_0x10000 (r : Nat) (h : isScalar r) (h2 : ¬ r < 0x800) (h3 : r < 0x10000) :
    encodeRune r = [0xE0 + r / 0x1000, 0x80 + (r / 0x40) % 0x40, 0x80 + r % 0x40] := by
  unfold isScalar at h
  have c1 : ¬ r < 0x80 := by omega
  have c3 : (decide (0xD800 ≤ r) && decide (r < 0xE000) || decide (0x10FFFF < r)) = false := by
    rw [Bool.eq_false_iff]; simp; omega
  simp only [encodeRune, c1, h2, c3, h3, if_true, if_false, Bool.false_eq_true]

theorem encodeRune_of_ge_0x10000 (r : Nat) (h : isScalar r) (h3 : ¬ r < 0x10000) :
    encodeRune r =
      [0xF0 + r / 0x40000, 0x80 + (r / 0x1000) % 0x40, 0x80 + (r / 0x40) % 0x40, 0x80 + r % 0x40] := by
  unfold isScalar at h
  have c1 : ¬ r < 0x80 := by omega
  have c2 : ¬ r < 0x800 := by omega
  have c3 : (decide (0xD800 ≤ r) && decide (r < 0xE000) || decide (0x10FFFF < r)) = false := by
    rw [Bool.eq_false_iff]; simp; omega
  simp only [encodeRune, c1, c2, c3, h3, if_true, if_false, Bool.false_eq_true]

theorem decodeRune_encodeRune (r : Nat) (rest : Bytes) (h : isScalar r) :
    decodeRune (encodeRune r ++ rest) = (r, (encodeRune r).length) := by
  have hs := h
  obtain ⟨h1, h2⟩ := h
  by_cases c1 : r < 0x80
  · rw [encodeRune_of_lt_0x80 r c1]
    simp [decodeRune, c1]
  · by_cases c2 : r < 0x800
    · rw [encodeRune_of_lt_0x800 r c1 c2]
      simp only [decodeRune, List.cons_append, List.nil_append, isCont]
      have a1 : ¬ (0xC0 + r / 0x40 < 0x80) := by omega
      have a2 : ¬ (0xC0 + r / 0x40 < 0xC2) := by omega
      have a3 : 0xC0 + r / 0x40 < 0xE0 := by omega
      have a4 : (decide (0x80 ≤ 0x80 + r % 0x40) && decide (0x80 + r % 0x40 ≤ 0xBF)) = true := by
        simp; omega
      rw [if_neg a1, if_neg a2, if_pos a3, if_pos a4]
      simp only [List.length]
      congr 1
      omega
    · by_cases c4 : r < 0x10000
      · rw [encodeRune_of_lt_0x10000 r hs c2 c4]
        simp only [decodeRune, List.cons_append, List.nil_append, isCont]
        have a1 : ¬ (0xE0 + r / 0x1000 < 0x80) := by omega
        have a2 : ¬ (0xE0 + r / 0x1000 < 0xC2) := by omega
        have a3 : ¬ (0xE0 + r / 0x1000 < 0xE0) := by omega
        have a4 : 0xE0 + r / 0x1000 < 0xF0 := by omega
        have a5 : (decide ((if 0xE0 + r / 0x1000 = 0xE0 then 0xA0 else 0x80) ≤ 0x80 + r / 0x40 % 0x40) &&
            decide (0x80 + r / 0x40 % 0x40 ≤ if 0xE0 + r / 0x1000 = 0xED then 0x9F else 0xBF) &&
            (decide (0x80 ≤ 0x80 + r % 0x40) && decide (0x80 + r % 0x40 ≤ 0xBF))) = true := by
          simp only [Bool.and_eq_true, decide_eq_true_eq]
          refine ⟨⟨?_, ?_⟩, ?_, ?_⟩
          · split_ifs <;> omega
          · split_ifs <;> omega
          · omega
          · omega
        rw [if_neg a1, if_neg a2, if_neg a3, if_pos a4, if_pos a5]
        simp only [List.length]
        congr 1
        omega
      · rw [encodeRune_of_ge_0x10000 r hs c4]
        simp only [decodeRune, List.cons_append, List.nil_append, isCont]
        have a1 : ¬ (0xF0 + r / 0x40000 < 0x80) := by omega
        have a2 : ¬ (0xF0 + r / 0x40000 < 0xC2) := by omega
        have a3 : ¬ (0xF0 + r / 0x40000 < 0xE0) := by omega
        have a4 : ¬ (0xF0 + r / 0x40000 < 0xF0) := by omega
        have a6 : 0xF0 + r / 0x40000 < 0xF5 := by omega
        have a5 : (decide ((if 0xF0 + r / 0x40000 = 0xF0 then 0x90 else 0x80) ≤ 0x80 + r / 0x1000 % 0x40) &&
            decide (0x80 + r / 0x1000 % 0x40 ≤ if 0xF0 + r / 0x40000 = 0xF4 then 0x8F else 0xBF) &&
            (decide (0x80 ≤ 0x80 + r / 0x40 % 0x40) && decide (0x80 + r / 0x40 % 0x40 ≤ 0xBF)) &&
            (decide (0x80 ≤ 0x80 + r % 0x40) && decide (0x80 + r % 0x40 ≤ 0xBF))) = true := by
          simp only [Bool.and_eq_true, decide_eq_true_eq]
          refine ⟨⟨⟨?_, ?_⟩, ?_, ?_⟩, ?_, ?_⟩
          · split_ifs <;> omega
          · split_ifs <;> omega
          · omega
          · omega
          · omega
          · omega
        rw [if_neg a1, if_neg a2, if_neg a3, if_neg a4, if_pos a6, if_pos a5]
        simp only [List.length]
        congr 1
        omega

theorem encodeRune_of_not_scalar (r : Nat) (h : ¬ isScalar r) :
    encodeRune r = encodeRune runeError := by
  unfold isScalar at h
  unfold encodeRune runeError
  have c1 : ¬ r < 0x80 := by omega
  have c2 : ¬ r < 0x800 := by omega
  have c3 : (decide (0xD800 ≤ r) && decide (r < 0xE000) || decide (0x10FFFF < r)) = true := by
    simp; omega
  simp [c1, c2, c3]

theorem validUTF8_encodeRune (r : Nat) : ValidUTF8 (encodeRune r) := by
  by_cases h : isScalar r
  · simpa using ValidUTF8.rune r [] h ValidUTF8.nil
  · rw [encodeRune_of_not_scalar r h]
    simpa using ValidUTF8.rune runeError [] (by unfold isScalar runeError; omega) ValidUTF8.nil

theorem validUTF8_append {a b : Bytes} (ha : ValidUTF8 a) (hb : ValidUTF8 b) : ValidUTF8 (a ++ b) := by
  induction ha with
  | nil => simpa using hb
  | rune r rest hr _ ih =>
    rw [List.append_assoc]
    exact ValidUTF8.rune r _ hr ih

theorem validUTF8_ascii (c : Nat) (h : c < 0x80) : ValidUTF8 [c] := by
  have := validUTF8_encodeRune c
  simpa [encodeRune, h] using this

theorem unquoteLoop_drop (k : Nat) (s : Bytes) : unquoteLoop k s = unquoteLoop 0 (s.drop k) := by
  induction s generalizing k with
  | nil => cases k <;> simp [unquoteLoop]
  | cons c rest ih =>
    cases k with
    | zero => simp
    | succ k => simp [unquoteLoop, ih k]

theorem unquoteLoop_token (tok rest : Bytes) (hne : tok ≠ [])
    (hlen : (unquoteAt (tok ++ rest)).2 = tok.length) :
    unquoteLoop 0 (tok ++ rest) = (unquoteAt (tok ++ rest)).1 ++ unquoteLoop 0 rest := by
  cases tok with
  | nil => exact absurd rfl hne
  | cons c t =>
    simp only [List.cons_append] at hlen ⊢
    rw [unquoteLoop, hlen, unquoteLoop_drop]
    simp

theorem appendStringLoop_drop (k : Nat) (s : Bytes) :
    appendStringLoop k s = appendStringLoop 0 (s.drop k) := by
  induction s generalizing k with
  | nil => cases k <;> simp [appendStringLoop]
  | cons c rest ih =>
    cases k with
    | zero => simp
    | succ k => simp [appendStringLoop, ih k]

theorem appendStringLoop_token (tok rest : Bytes) (hne : tok ≠ [])
    (hlen : (appendStringAt (tok ++ rest)).2 = tok.length) :
    appendStringLoop 0 (tok ++ rest) = (appendStringAt (tok ++ rest)).1 ++ appendStringLoop 0 rest := by
  cases tok with
  | nil => exact absurd rfl hne
  | cons c t =>
    simp only [List.cons_append] at hlen ⊢
    rw [appendStringLoop, hlen, appendStringLoop_drop]
    simp

theorem unquoteAt_valid (s : Bytes) : ValidUTF8 (unquoteAt s).1 := by
  unfold unquoteAt
  split
  · exact ValidUTF8.nil
  · rename_i c rest
    split
    · split
      · exact ValidUTF8.nil
      · rename_i x rest2
        split
        · split
          · exact ValidUTF8.nil
          · split
            · dsimp only
              split <;> (dsimp only; exact validUTF8_encodeRune _)
            · exact validUTF8_encodeRune _
        · split
          · rename_i hx
            apply validUTF8_ascii
            simp at hx
            rcases hx with ((h | h) | h) | h <;> simp [h]
          · repeat' split
            all_goals first | exact ValidUTF8.nil | exact validUTF8_ascii _ (by decide)
    · split
      · rename_i h
        exact validUTF8_ascii _ h
      · exact validUTF8_encodeRune _

theorem unquoteLoop_valid (k : Nat) (s : Bytes) : ValidUTF8 (unquoteLoop k s) := by
  induction s generalizing k with
  | nil => cases k <;> exact ValidUTF8.nil
  | cons c rest ih =>
    cases k with
    | zero =>
      rw [unquoteLoop]
      exact validUTF8_append (unquoteAt_valid _) (ih _)
    | succ k =>
      rw [unquoteLoop]
      exact ih k

theorem unquote_valid (s : Bytes) : ValidUTF8 (unquote s) := unquoteLoop_valid 0 s

theorem escape_token_ascii (r : Nat) (h : r < 0x80) (rest : Bytes) :
    (appendStringAt (r :: rest)).2 = 1 ∧ (appendStringAt (r :: rest)).1 ≠ [] ∧
    ∀ Y, unquoteAt ((appendStringAt (r :: rest)).1 ++ Y) =
      ([r], (appendStringAt (r :: rest)).1.length) := by
  interval_cases r <;> exact ⟨rfl, List.cons_ne_nil _ _, fun Y => rfl⟩

theorem encodeRune_head (r : Nat) (h : isScalar r) (h1 : ¬ r < 0x80) :
    ∃ b t, encodeRune r = b :: t ∧ ¬ b < 0x80 ∧ b ≠ '\\'.toNat ∧ 2 ≤ (encodeRune r).length := by
  by_cases c2 : r < 0x800
  · rw [encodeRune_of_lt_0x800 r h1 c2]
    exact ⟨_, _, rfl, by omega, by simp; omega, by simp⟩
  · by_cases c4 : r < 0x10000
    · rw [encodeRune_of_lt_0x10000 r h c2 c4]
      exact ⟨_, _, rfl, by omega, by simp; omega, by simp⟩
    · rw [encodeRune_of_ge_0x10000 r h c4]
      exact ⟨_, _, rfl, by omega, by simp; omega, by simp⟩

theorem appendStringAt_of_ge (b : Nat) (t : Bytes) (h : ¬ b < 0x80) :
    appendStringAt (b :: t) =
      if (decodeRune (b :: t)).1 = runeError && (decodeRune (b :: t)).2 = 1 then (ascii "\\ufffd", 1)
      else if (decodeRune (b :: t)).1 = 0x2028 || (decodeRune (b :: t)).1 = 0x2029 then
        (ascii "\\u202" ++ [hexDigit ((decodeRune (b :: t)).1 % 16)], (decodeRune (b :: t)).2)
      else ((b :: t).take (decodeRune (b :: t)).2, (decodeRune (b :: t)).2) := by
  simp only [appendStringAt, h, if_false]

theorem unquoteAt_of_ge (b : Nat) (t : Bytes) (h : ¬ b < 0x80) (h2 : b ≠ '\\'.toNat) :
    unquoteAt (b :: t) = (encodeRune (decodeRune (b :: t)).1, (decodeRune (b :: t)).2) := by
  simp only [unquoteAt, h, h2, if_false]

theorem escape_token_wide (r : Nat) (hs : isScalar r) (h : ¬ r < 0x80) (rest : Bytes) :
    (appendStringAt (encodeRune r ++ rest)).2 = (encodeRune r).length ∧
    (appendStringAt (encodeRune r ++ rest)).1 ≠ [] ∧
    ∀ Y, unquoteAt ((appendStringAt (encodeRune r ++ rest)).1 ++ Y) =
      (encodeRune r, (appendStringAt (encodeRune r ++ rest)).1.length) := by
  obtain ⟨b, t, hbt, hb, hb2, hlen⟩ := encodeRune_head r hs h
  have hd := decodeRune_encodeRune r rest hs
  have hA : appendStringAt (encodeRune r ++ rest) =
      if r = 0x2028 ∨ r = 0x2029 then
        (ascii "\\u202" ++ [hexDigit (r % 16)], (encodeRune r).length)
      else (encodeRune r, (encodeRune r).length) := by
    have := appendStringAt_of_ge b (t ++ rest) hb
    rw [← List.cons_append, ← hbt, hd] at this
    rw [this]
    have hne : ¬ ((r = runeError) ∧ (encodeRune r).length = 1) := by omega
    simp only [Bool.and_eq_true, decide_eq_true_eq, hne, if_false, Bool.or_eq_true,
      List.take_left']
  by_cases hr : r = 0x2028 ∨ r = 0x2029
  · rw [hA, if_pos hr]
    rcases hr with hr | hr <;> subst hr <;> exact ⟨rfl, List.cons_ne_nil _ _, fun Y => rfl⟩
  · rw [hA, if_neg hr]
    refine ⟨rfl, by rw [hbt]; exact List.cons_ne_nil _ _, fun Y => ?_⟩
    have hY := decodeRune_encodeRune r Y hs
    have := unquoteAt_of_ge b (t ++ Y) hb hb2
    rw [← List.cons_append, ← hbt, hY] at this
    exact this

theorem unquote_appendString (s : Bytes) (h : ValidUTF8 s) :
    unquote (appendStringLoop 0 s) = s := by
  unfold unquote
  induction h with
  | nil => rfl
  | rune r rest hr _ ih =>
    have key : (appendStringAt (encodeRune r ++ rest)).2 = (encodeRune r).length ∧
        (appendStringAt (encodeRune r ++ rest)).1 ≠ [] ∧
        ∀ Y, unquoteAt ((appendStringAt (encodeRune r ++ rest)).1 ++ Y) =
          (encodeRune r, (appendStringAt (encodeRune r ++ rest)).1.length) := by
      by_cases c : r < 0x80
      · have := escape_token_ascii r c rest
        rw [encodeRune_of_lt_0x80 r c]
        exact this
      · exact escape_token_wide r hr c rest
    obtain ⟨k1, k2, k3⟩ := key
    have hne : encodeRune r ≠ [] := by
      intro h0
      rw [h0] at k1
      by_cases c : r < 0x80
      · rw [encodeRune_of_lt_0x80 r c] at h0
        cases h0
      · obtain ⟨b, t, hbt, _⟩ := encodeRune_head r hr c
        rw [hbt] at h0
        cases h0
    rw [appendStringLoop_token _ _ hne k1]
    rw [unquoteLoop_token _ _ k2 (by rw [k3])]
    rw [k3, ih]

theorem staysInString_nil : StaysInString [] := by
  intro σ rest _
  rfl

theorem staysInString_append {a b : Bytes} (ha : StaysInString a) (hb : StaysInString b) :
    StaysInString (a ++ b) := by
  intro σ rest h
  rw [List.append_assoc, ha σ _ h, hb { σ with lit := a.reverse ++ σ.lit } rest h]
  simp [List.reverse_append, List.append_assoc]

theorem staysInString_of_ge (l : Bytes) (h : ∀ x ∈ l, 0x80 ≤ x) : StaysInString l := by
  induction l with
  | nil => exact staysInString_nil
  | cons c t ih =>
    have hc : 0x80 ≤ c := h c (by simp)
    have ht : StaysInString t := ih (fun x hx => h x (by simp [hx]))
    intro σ rest hσ
    have h1 : ¬ c = '"'.toNat := by simp; omega
    have h2 : ¬ c = '\\'.toNat := by simp; omega
    have h3 : ¬ c < 0x20 := by omega
    have step : stepByte σ c = .more { σ with lit := c :: σ.lit } := by
      simp only [stepByte, hσ, h1, h2, h3, if_false]
    rw [List.cons_append, scanValue, step]
    simp only []
    rw [ht { σ with lit := c :: σ.lit } rest hσ]
    simp [List.append_assoc]

theorem decodeRune_take_ge (b : Nat) (t : Bytes) (hb : ¬ b < 0x80) :
    ∀ x ∈ (b :: t).take (decodeRune (b :: t)).2, 0x80 ≤ x := by
  intro x hx
  rcases t with _ | ⟨b1, _ | ⟨b2, _ | ⟨b3, t3⟩⟩⟩ <;>
    simp only [decodeRune, hb, if_false] at hx <;>
    split_ifs at hx <;>
    simp [isCont] at * <;> omega

theorem staysInString_escape_ascii (r : Nat) (h : r < 0x80) (rest : Bytes) :
    StaysInString (appendStringAt (r :: rest)).1 := by
  interval_cases r <;> (intro σ tl hσ; cases σ; simp only at hσ; subst hσ; rfl)

theorem staysInString_escape (s : Bytes) : StaysInString (appendStringAt s).1 := by
  cases s with
  | nil => exact staysInString_nil
  | cons b t =>
    by_cases hb : b < 0x80
    · exact staysInString_escape_ascii b hb t
    · rw [appendStringAt_of_ge b t hb]
      split
      · intro σ tl hσ; cases σ; simp only at hσ; subst hσ; rfl
      · split
        · rename_i h
          simp only [Bool.or_eq_true, decide_eq_true_eq] at h
          rcases h with h | h <;> rw [h] <;>
            (intro σ tl hσ; cases σ; simp only at hσ; subst hσ; rfl)
        · exact staysInString_of_ge _ (decodeRune_take_ge b t hb)

theorem staysInString_loop (k : Nat) (s : Bytes) : StaysInString (appendStringLoop k s) := by
  induction s generalizing k with
  | nil => cases k <;> exact staysInString_nil
  | cons c rest ih =>
    cases k with
    | zero =>
      rw [appendStringLoop]
      exact staysInString_append (staysInString_escape _) (ih _)
    | succ k =>
      rw [appendStringLoop]
      exact ih k

theorem digitChar_toNat : ∀ k, k < 10 → (Nat.digitChar k).toNat = 48 + k := by decide

theorem toDigitsCore_shape (fuel : Nat) : ∀ (n : Nat) (ds : List Char), 0 < n → n < fuel →
    ∃ d ds', Nat.toDigitsCore 10 fuel n ds = d :: (ds' ++ ds) ∧
      (49 ≤ d.toNat ∧ d.toNat ≤ 57) ∧ ∀ x ∈ ds', 48 ≤ x.toNat ∧ x.toNat ≤ 57 := by
  induction fuel with
  | zero => intro n ds _ h; omega
  | succ fuel ih =>
    intro n ds hn hlt
    have hd : (Nat.digitChar (n % 10)).toNat = 48 + n % 10 :=
      digitChar_toNat (n % 10) (Nat.mod_lt _ (by decide))
    by_cases h0 : n / 10 = 0
    · refine ⟨Nat.digitChar (n % 10), [], ?_, ?_, ?_⟩
      · simp [Nat.toDigitsCore, h0]
      · rw [hd]; omega
      · simp
    · obtain ⟨d, ds', he, hdr, hall⟩ := ih (n / 10) (Nat.digitChar (n % 10) :: ds) (by omega) (by omega)
      refine ⟨d, ds' ++ [Nat.digitChar (n % 10)], ?_, hdr, ?_⟩
      · simp [Nat.toDigitsCore, h0, he]
      · intro x hx
        rcases List.mem_append.mp hx with hx | hx
        · exact hall x hx
        · simp at hx
          subst hx
          rw [hd]; omega

theorem formatUint_shape (m : Nat) :
    (m = 0 ∧ (Nat.toDigits 10 m).map Char.toNat = [48]) ∨
    ∃ d ds, (Nat.toDigits 10 m).map Char.toNat = d :: ds ∧ (49 ≤ d ∧ d ≤ 57) ∧
      ∀ x ∈ ds, isDigit x = true := by
  by_cases hm : m = 0
  · left
    subst hm
    exact ⟨rfl, rfl⟩
  · right
    obtain ⟨d, ds', he, hdr, hall⟩ := toDigitsCore_shape (m + 1) m [] (by omega) (by omega)
    refine ⟨d.toNat, ds'.map Char.toNat, ?_, hdr, ?_⟩
    · simp [Nat.toDigits, he]
    · intro x hx
      simp only [List.mem_map] at hx
      obtain ⟨c, hc, rfl⟩ := hx
      have := hall c hc
      simp [isDigit]
      omega

theorem scan_digits (ds : Bytes) (hds : ∀ x ∈ ds, isDigit x = true) (σ : Scanner)
    (hσ : σ.step = .s1) (rest : Bytes) :
    scanValue σ (ds ++ rest) = scanValue { σ with lit := ds.reverse ++ σ.lit } rest := by
  induction ds generalizing σ with
  | nil => rfl
  | cons c t ih =>
    have hc : isDigit c = true := hds c (by simp)
    have step : stepByte σ c = .more { σ with lit := c :: σ.lit } := by
      simp only [stepByte, hσ, hc, if_true]
    rw [List.cons_append, scanValue, step]
    simp only []
    rw [ih (fun x hx => hds x (by simp [hx])) { σ with lit := c :: σ.lit } hσ]
    simp [List.append_assoc]

theorem scan_uint_member (m : Nat) (σ : Scanner) (ms : List (Bytes × JSON)) (k : Bytes)
    (stack : List Frame) (pre : Bytes)
    (hσ : (σ.step = .beginValue ∧ pre = []) ∨ (σ.step = .neg ∧ pre = σ.lit.reverse))
    (hps : σ.parseState = .objectValue ms k :: stack) (rest : Bytes) :
    scanValue σ ((Nat.toDigits 10 m).map Char.toNat ++ ','.toNat :: rest) =
      scanValue { step := .beginString,
                  parseState := .objectKey (ms ++ [(k, .number (pre ++ (Nat.toDigits 10 m).map Char.toNat))]) :: stack,
                  lit := ((Nat.toDigits 10 m).map Char.toNat).reverse ++ pre.reverse,
                  val := .number (pre ++ (Nat.toDigits 10 m).map Char.toNat) } rest := by
  obtain ⟨st, ps, lit, val⟩ := σ
  simp only at hσ hps
  subst hps
  rcases formatUint_shape m with ⟨_, h0⟩ | ⟨d, ds, he, hd, hds⟩
  · rw [h0]
    rcases hσ with ⟨h1, h2⟩ | ⟨h1, h2⟩ <;> subst h1 <;> subst h2 <;> simp [scanValue, stepByte,
      stateBeginValue, isSpace, state0, endNumber, stateEndValue]
  · rw [he]
    have hd1 : ¬ d = '0'.toNat := by simp; omega
    have hd2 : ('1'.toNat ≤ d && d ≤ '9'.toNat) = true := by simp; omega
    have hcomma : ∀ L : Bytes, stepByte ⟨.s1, .objectValue ms k :: stack, L, val⟩ ','.toNat =
        .more ⟨.beginString, .objectKey (ms ++ [(k, .number L.reverse)]) :: stack, L,
          .number L.reverse⟩ := by
      intro L
      simp [stepByte, isDigit, state0, endNumber, stateEndValue, isSpace]
    rcases hσ with ⟨h1, h2⟩ | ⟨h1, h2⟩
    · subst h1; subst h2
      have hsp : isSpace d = false := by simp [isSpace]; omega
      have step : stepByte ⟨.beginValue, .objectValue ms k :: stack, lit, val⟩ d =
          .more ⟨.s1, .objectValue ms k :: stack, [d], val⟩ := by
        have e1 : ¬ d = '{'.toNat := by simp; omega
        have e2 : ¬ d = '['.toNat := by simp; omega
        have e3 : ¬ d = '"'.toNat := by simp; omega
        have e4 : ¬ d = '-'.toNat := by simp; omega
        have e5 : ¬ d = 't'.toNat := by simp; omega
        have e6 : ¬ d = 'f'.toNat := by simp; omega
        have e7 : ¬ d = 'n'.toNat := by simp; omega
        simp only [stepByte, stateBeginValue, hsp, e1, e2, e3, e4, hd1, e5, e6, e7, hd2, if_true,
          if_false, Bool.false_eq_true]
      rw [List.cons_append, scanValue, step]
      simp only []
      rw [scan_digits ds hds _ rfl, scanValue]
      dsimp only
      rw [hcomma]
      simp
    · subst h1
      have step : stepByte ⟨.neg, .objectValue ms k :: stack, lit, val⟩ d =
          .more ⟨.s1, .objectValue ms k :: stack, d :: lit, val⟩ := by
        simp only [stepByte, hd1, hd2, if_true, if_false]
      rw [List.cons_append, scanValue, step]
      simp only []
      rw [scan_digits ds hds _ rfl, scanValue]
      subst h2
      dsimp only
      rw [hcomma]
      simp

theorem scan_int_member (n : Int) (σ : Scanner) (ms : List (Bytes × JSON)) (k : Bytes)
    (stack : List Frame) (hσ : σ.step = .beginValue)
    (hps : σ.parseState = .objectValue ms k :: stack) (rest : Bytes) :
    scanValue σ (formatInt n ++ ','.toNat :: rest) =
      scanValue ⟨.beginString, .objectKey (ms ++ [(k, .number (formatInt n))]) :: stack,
        (formatInt n).reverse, .number (formatInt n)⟩ rest := by
  unfold formatInt
  by_cases hn : n < 0
  · rw [if_pos hn]
    obtain ⟨st, ps, lit, val⟩ := σ
    simp only at hσ hps
    subst hσ; subst hps
    have step : stepByte ⟨.beginValue, .objectValue ms k :: stack, lit, val⟩ '-'.toNat =
        .more ⟨.neg, .objectValue ms k :: stack, ['-'.toNat], val⟩ := by
      rfl
    rw [List.cons_append, scanValue, step]
    dsimp only
    rw [scan_uint_member n.natAbs ⟨.neg, .objectValue ms k :: stack, ['-'.toNat], val⟩ ms k stack
      ['-'.toNat] (Or.inr ⟨rfl, rfl⟩) rfl]
    simp
  · rw [if_neg hn]
    rw [scan_uint_member n.natAbs σ ms k stack [] (Or.inl ⟨hσ, rfl⟩) hps]
    simp

theorem scan_string (s : Bytes) (σ : Scanner)
    (hσ : σ.step = .beginValue ∨ σ.step = .beginValueOrEmpty) (rest : Bytes) :
    scanValue σ (appendString s ++ rest) =
      scanValue ⟨.endValue, σ.parseState, (appendStringLoop 0 s).reverse,
        .string (appendStringLoop 0 s)⟩ rest := by
  obtain ⟨st, ps, lit, val⟩ := σ
  simp only at hσ
  have step : stepByte ⟨st, ps, lit, val⟩ '"'.toNat = .more ⟨.inString, ps, [], val⟩ := by
    rcases hσ with h | h <;> subst h <;> rfl
  unfold appendString
  simp only [List.cons_append, List.append_assoc]
  rw [scanValue, step]
  dsimp only
  rw [staysInString_loop 0 s ⟨.inString, ps, [], val⟩ _ rfl]
  dsimp only
  rw [scanValue]
  simp [stepByte]

theorem scan_head (X : Bytes) : ∃ l v,
    scanValue Scanner.reset (ascii "\x7b\"id\":" ++ X) =
      scanValue ⟨.beginValue, [.objectValue [] (ascii "id")], l, v⟩ X :=
  ⟨_, _, rfl⟩

theorem scan_middle (ms : List (Bytes × JSON)) (l : Bytes) (v : JSON) (X : Bytes) : ∃ l1 v1,
    scanValue ⟨.beginString, [.objectKey ms], l, v⟩
        (ascii "\"jsonrpc\":\"2.0\",\"method\":\"eth_sign\",\"params\":[" ++ X) =
      scanValue ⟨.beginValueOrEmpty,
        [.arrayValue [], .objectValue ((ms ++ [(ascii "jsonrpc", .string (ascii "2.0"))]) ++
          [(ascii "method", .string (ascii "eth_sign"))]) (ascii "params")], l1, v1⟩ X :=
  ⟨_, _, rfl⟩

theorem scan_comma (xs : List JSON) (stack : List Frame) (l : Bytes) (v : JSON) (X : Bytes) :
    scanValue ⟨.endValue, .arrayValue xs :: stack, l, v⟩ (ascii "," ++ X) =
      scanValue ⟨.beginValue, .arrayValue (xs ++ [v]) :: stack, l, v⟩ X := rfl

theorem scan_tail (xs : List JSON) (ms : List (Bytes × JSON)) (k l : Bytes) (v : JSON) :
    scanValue ⟨.endValue, [.arrayValue xs, .objectValue ms k], l, v⟩ (ascii "]\x7d") =
      some (.object (ms ++ [(k, .array (xs ++ [v]))]), []) := rfl

theorem Marshal_payload_nested (req : SignRequest) : Marshal (payload req) =
    ascii "\x7b\"id\":" ++ (formatInt req.ID ++ ','.toNat ::
    (ascii "\"jsonrpc\":\"2.0\",\"method\":\"eth_sign\",\"params\":[" ++
    (appendString req.Params.Address ++ (ascii "," ++ (appendString req.Params.Input ++
    ascii "]\x7d"))))) := by
  rw [Marshal_payload]
  simp [ascii, List.append_assoc]

theorem readValue_Marshal_payload (req : SignRequest) :
    readValue (Marshal (payload req)) =
      some (.object [(ascii "id", .number (formatInt req.ID)),
        (ascii "jsonrpc", .string (ascii "2.0")),
        (ascii "method", .string (ascii "eth_sign")),
        (ascii "params", .array [.string (appendStringLoop 0 req.Params.Address),
          .string (appendStringLoop 0 req.Params.Input)])], []) := by
  rw [Marshal_payload_nested, readValue]
  obtain ⟨l, v, h⟩ := scan_head (formatInt req.ID ++ ','.toNat ::
    (ascii "\"jsonrpc\":\"2.0\",\"method\":\"eth_sign\",\"params\":[" ++
    (appendString req.Params.Address ++ (ascii "," ++ (appendString req.Params.Input ++
    ascii "]\x7d")))))
  rw [h, scan_int_member req.ID _ [] (ascii "id") [] rfl rfl]
  obtain ⟨l1, v1, h1⟩ := scan_middle ([] ++ [(ascii "id", .number (formatInt req.ID))])
    (formatInt req.ID).reverse (.number (formatInt req.ID))
    (appendString req.Params.Address ++ (ascii "," ++ (appendString req.Params.Input ++
    ascii "]\x7d")))
  rw [h1, scan_string req.Params.Address _ (Or.inr rfl), scan_comma,
    scan_string req.Params.Input _ (Or.inl rfl), scan_tail]
  simp

theorem storeString_valid (v : JSON) (old : Bytes) (h : ValidUTF8 old) :
    ValidUTF8 (storeString v old).1 := by
  cases v <;> first | exact h | exact unquote_valid _

theorem parseInt_range (s : Bytes) (n : Int) (h : parseInt s = some n) :
    -(2 : Int) ^ 63 ≤ n ∧ n < (2 : Int) ^ 63 := by
  unfold parseInt at h
  split at h
  · cases h
  · split at h
    · cases h
    · rename_i un _
      split at h
      · split at h
        · cases h
          have : (un : Int) ≤ 2 ^ 63 := by exact_mod_cast ‹un ≤ 2 ^ 63›
          omega
        · cases h
      · split at h
        · cases h
          have : (un : Int) < 2 ^ 63 := by exact_mod_cast ‹un < 2 ^ 63›
          omega
        · cases h

theorem storeInt_range (v : JSON) (old : Int)
    (h : -(2 : Int) ^ 63 ≤ old ∧ old < (2 : Int) ^ 63) :
    -(2 : Int) ^ 63 ≤ (storeInt v old).1 ∧ (storeInt v old).1 < (2 : Int) ^ 63 := by
  cases v with
  | number lit =>
    simp only [storeInt]
    cases hp : parseInt lit with
    | none => exact h
    | some n => exact parseInt_range lit n hp
  | _ => exact h

theorem storeParamsMember_valid (acc : SignParams × Bool) (m : Bytes × JSON)
    (h : ValidUTF8 acc.1.Address ∧ ValidUTF8 acc.1.Data ∧ ValidUTF8 acc.1.Input) :
    ValidUTF8 (storeParamsMember acc m).1.Address ∧ ValidUTF8 (storeParamsMember acc m).1.Data ∧
    ValidUTF8 (storeParamsMember acc m).1.Input := by
  obtain ⟨h1, h2, h3⟩ := h
  unfold storeParamsMember
  split
  · exact ⟨storeString_valid _ _ h1, h2, h3⟩
  · exact ⟨h1, storeString_valid _ _ h2, h3⟩
  · exact ⟨h1, h2, storeString_valid _ _ h3⟩
  · exact ⟨h1, h2, h3⟩

theorem foldl_storeParamsMember_valid (ms : List (Bytes × JSON)) (acc : SignParams × Bool)
    (h : ValidUTF8 acc.1.Address ∧ ValidUTF8 acc.1.Data ∧ ValidUTF8 acc.1.Input) :
    ValidUTF8 (ms.foldl storeParamsMember acc).1.Address ∧
    ValidUTF8 (ms.foldl storeParamsMember acc).1.Data ∧
    ValidUTF8 (ms.foldl storeParamsMember acc).1.Input := by
  induction ms generalizing acc with
  | nil => exact h
  | cons m rest ih => exact ih _ (storeParamsMember_valid acc m h)

theorem storeParams_valid (v : JSON) (old : SignParams)
    (h : ValidUTF8 old.Address ∧ ValidUTF8 old.Data ∧ ValidUTF8 old.Input) :
    ValidUTF8 (storeParams v old).1.Address ∧ ValidUTF8 (storeParams v old).1.Data ∧
    ValidUTF8 (storeParams v old).1.Input := by
  cases v with
  | object ms => exact foldl_storeParamsMember_valid ms (old, false) h
  | _ => exact h

theorem storeRequestMember_wellFormed (acc : SignRequest × Bool) (m : Bytes × JSON)
    (h : acc.1.WellFormed) : (storeRequestMember acc m).1.WellFormed := by
  obtain ⟨h1, h2, h3, h4, h5, h6⟩ := h
  unfold storeRequestMember
  split
  · exact ⟨storeString_valid _ _ h1, h2, h3, h4, h5, h6⟩
  · exact ⟨h1, storeString_valid _ _ h2, h3, h4, h5, h6⟩
  · have := storeParams_valid m.2 acc.1.Params ⟨h3, h4, h5⟩
    exact ⟨h1, h2, this.1, this.2.1, this.2.2, h6⟩
  · exact ⟨h1, h2, h3, h4, h5, storeInt_range _ _ h6⟩
  · exact ⟨h1, h2, h3, h4, h5, h6⟩

theorem foldl_storeRequestMember_wellFormed (ms : List (Bytes × JSON)) (acc : SignRequest × Bool)
    (h : acc.1.WellFormed) : (ms.foldl storeRequestMember acc).1.WellFormed := by
  induction ms generalizing acc with
  | nil => exact h
  | cons m rest ih => exact ih _ (storeRequestMember_wellFormed acc m h)

theorem zero_wellFormed : SignRequest.zero.WellFormed :=
  ⟨ValidUTF8.nil, ValidUTF8.nil, ValidUTF8.nil, ValidUTF8.nil, ValidUTF8.nil, by decide, by decide⟩

theorem unmarshal_wellFormed (v : JSON) (req : SignRequest) (h : req.WellFormed) :
    (unmarshal v req).1.WellFormed := by
  cases v with
  | object ms => exact foldl_storeRequestMember_wellFormed ms (req, false) h
  | _ => exact h

theorem Decode_wellFormed (body : Bytes) (req : SignRequest) (h : Decode body = .ok req) :
    req.WellFormed := by
  unfold Decode at h
  split at h
  · cases h
  · split at h
    · cases h
    · cases h
      exact unmarshal_wellFormed _ _ zero_wellFormed

theorem foldl_toDigitsCore (fuel : Nat) : ∀ (n : Nat) (ds : List Char), n < fuel →
    ((Nat.toDigitsCore 10 fuel n ds).map Char.toNat).foldl (fun a c => 10 * a + (c - '0'.toNat)) 0 =
      (ds.map Char.toNat).foldl (fun a c => 10 * a + (c - '0'.toNat)) n := by
  induction fuel with
  | zero => intro n ds h; omega
  | succ fuel ih =>
    intro n ds hlt
    have hd : (Nat.digitChar (n % 10)).toNat = 48 + n % 10 :=
      digitChar_toNat (n % 10) (Nat.mod_lt _ (by decide))
    by_cases h0 : n / 10 = 0
    · have hn : n % 10 = n := by omega
      rw [hn] at hd
      simp [Nat.toDigitsCore, h0, hd, hn]
    · simp only [Nat.toDigitsCore, h0, if_false]
      rw [ih (n / 10) _ (by omega)]
      simp only [List.map_cons, List.foldl_cons, hd]
      congr 1
      simp
      omega

theorem parseUint_toDigits (m : Nat) :
    parseUint ((Nat.toDigits 10 m).map Char.toNat) = some m := by
  have hval : ((Nat.toDigits 10 m).map Char.toNat).foldl
      (fun a c => 10 * a + (c - '0'.toNat)) 0 = m := by
    have := foldl_toDigitsCore (m + 1) m [] (by omega)
    simpa [Nat.toDigits] using this
  have hne : (Nat.toDigits 10 m).map Char.toNat ≠ [] ∧
      ((Nat.toDigits 10 m).map Char.toNat).all isDigit = true := by
    rcases formatUint_shape m with ⟨_, h0⟩ | ⟨d, ds, he, hd, hds⟩
    · rw [h0]; exact ⟨by simp, by decide⟩
    · rw [he]
      refine ⟨by simp, ?_⟩
      simp only [List.all_cons, Bool.and_eq_true, List.all_eq_true]
      refine ⟨?_, hds⟩
      simp [isDigit]; omega
  unfold parseUint
  rw [if_pos (by simp only [Bool.and_eq_true, decide_eq_true_eq]; exact ⟨hne.1, hne.2⟩), hval]

theorem parseInt_formatInt (n : Int) (h : -(2 : Int) ^ 63 ≤ n ∧ n < (2 : Int) ^ 63) :
    parseInt (formatInt n) = some n := by
  unfold formatInt
  by_cases hn : n < 0
  · rw [if_pos hn]
    simp only [parseInt, Bool.true_or, decide_True, if_true, parseUint_toDigits]
    have : n.natAbs ≤ 2 ^ 63 := by omega
    simp only [this, if_true]
    congr 1
    omega
  · rw [if_neg hn]
    rcases formatUint_shape n.natAbs with ⟨_, h0⟩ | ⟨d, ds, he, hd, hds⟩
    · have := parseUint_toDigits n.natAbs
      rw [h0] at this ⊢
      have hz : n = 0 := by omega
      subst hz
      rfl
    · have hp := parseUint_toDigits n.natAbs
      rw [he] at hp ⊢
      have e1 : ¬ d = '-'.toNat := by simp; omega
      have e2 : ¬ d = '+'.toNat := by simp; omega
      have hlt : n.natAbs < 2 ^ 63 := by omega
      simp only [parseInt, e1, e2, decide_False, Bool.or_self, Bool.false_eq_true, if_false, hp,
        hlt, if_true]
      congr 1
      omega

theorem Valid_Marshal_payload (req : SignRequest) : Valid (Marshal (payload req)) = true := by
  simp only [Valid, readValue_Marshal_payload]
  rfl

end Web3SignerProxy

/-! ## Lemmas on the decoder: the shape of a request and the bytes after the first value -/

namespace Web3SignerProxy

theorem storeString_flag (v : JSON) (old : Bytes) : (storeString v old).2 = !fitsString v := by
  cases v <;> rfl

theorem storeInt_flag (v : JSON) (old : Int) : (storeInt v old).2 = !fitsInt v := by
  cases v with
  | number lit =>
    simp only [storeInt, fitsInt]
    cases parseInt lit <;> rfl
  | _ => rfl

theorem storeParamsMember_flag (acc : SignParams × Bool) (m : Bytes × JSON) :
    (storeParamsMember acc m).2 = (acc.2 || !paramsMemberFits m) := by
  unfold storeParamsMember paramsMemberFits
  split <;> simp [storeString_flag, *]

theorem foldl_storeParamsMember_flag (ms : List (Bytes × JSON)) (acc : SignParams × Bool) :
    (ms.foldl storeParamsMember acc).2 = (acc.2 || !ms.all paramsMemberFits) := by
  induction ms generalizing acc with
  | nil => simp
  | cons m rest ih =>
    rw [List.foldl_cons, ih, storeParamsMember_flag]
    simp only [List.all_cons, Bool.not_and, Bool.or_assoc]

theorem storeParams_flag (v : JSON) (old : SignParams) :
    (storeParams v old).2 = !fitsParams v := by
  cases v with
  | object ms => simp [storeParams, fitsParams, foldl_storeParamsMember_flag]
  | _ => rfl

theorem storeRequestMember_flag (acc : SignRequest × Bool) (m : Bytes × JSON) :
    (storeRequestMember acc m).2 = (acc.2 || !requestMemberFits m) := by
  unfold storeRequestMember requestMemberFits
  split <;> simp [storeString_flag, storeInt_flag, storeParams_flag, *]

theorem foldl_storeRequestMember_flag (ms : List (Bytes × JSON)) (acc : SignRequest × Bool) :
    (ms.foldl storeRequestMember acc).2 = (acc.2 || !ms.all requestMemberFits) := by
  induction ms generalizing acc with
  | nil => simp
  | cons m rest ih =>
    rw [List.foldl_cons, ih, storeRequestMember_flag]
    simp only [List.all_cons, Bool.not_and, Bool.or_assoc]

theorem unmarshal_flag (v : JSON) (req : SignRequest) :
    (unmarshal v req).2 = !fitsSignRequest v := by
  cases v with
  | object ms => simp [unmarshal, fitsSignRequest, foldl_storeRequestMember_flag]
  | _ => rfl

theorem toOption_Decode (body : Bytes) : (Decode body).toOption = decodeValue (readValue body) := by
  unfold Decode decodeValue
  cases readValue body with
  | none => rfl
  | some r =>
    obtain ⟨v, rest⟩ := r
    simp only
    split <;> rfl

theorem signHandler_of_toOption (url : Bytes) (upstream : Upstream) (body1 body2 : Bytes)
    (h : (Decode body1).toOption = (Decode body2).toOption) :
    signHandler url upstream body1 = signHandler url upstream body2 := by
  cases h1 : Decode body1 with
  | error e1 =>
    cases h2 : Decode body2 with
    | error e2 =>
      rw [signHandler_of_error url upstream body1 e1 h1, signHandler_of_error url upstream body2 e2 h2]
    | ok r2 => rw [h1, h2] at h; cases h
  | ok r1 =>
    cases h2 : Decode body2 with
    | error e2 => rw [h1, h2] at h; cases h
    | ok r2 =>
      rw [h1, h2] at h
      have : r1 = r2 := by simpa [Except.toOption] using h
      subst this
      simp only [signHandler, h1, h2]

theorem decodeValue_number (lit rest : Bytes) : decodeValue (some (.number lit, rest)) = none := by
  rfl

theorem stepByte_inNumber (σ : Scanner) (c : Nat) (hn : σ.step.inNumber = true)
    (hps : σ.parseState = []) :
    stepByte σ c = .error ∨
    (∃ σ', stepByte σ c = .more σ' ∧ σ'.step.inNumber = true ∧ σ'.parseState = []) ∨
    (∃ lit b, stepByte σ c = .done (.number lit) b) := by
  obtain ⟨st, ps, lit, val⟩ := σ
  simp only at hn hps
  subst hps
  cases st <;> simp only [Step.inNumber, Bool.false_eq_true] at hn <;>
    simp only [stepByte, state0, endNumber, stateEndValue, stateESign] <;>
    split_ifs <;> simp [Step.inNumber]

theorem decodeValue_scan_inNumber (l : Bytes) : ∀ σ : Scanner, σ.step.inNumber = true →
    σ.parseState = [] → decodeValue (scanValue σ l) = none := by
  induction l with
  | nil =>
    intro σ hn hps
    rcases stepByte_inNumber σ ' '.toNat hn hps with h | ⟨σ', h, _, _⟩ | ⟨lit, b, h⟩ <;>
      simp only [scanValue, h] <;> rfl
  | cons c rest ih =>
    intro σ hn hps
    rcases stepByte_inNumber σ c hn hps with h | ⟨σ', h, hn', hps'⟩ | ⟨lit, b, h⟩
    · simp only [scanValue, h]; rfl
    · simp only [scanValue, h]
      exact ih σ' hn' hps'
    · simp only [scanValue, h]
      rfl

theorem stepByte_space_done (σ : Scanner) (v : JSON) (b : Bool)
    (h : stepByte σ ' '.toNat = .done v b) :
    (σ.step = .endValue ∧ σ.parseState = [] ∧ v = σ.val) ∨
    (σ.step.inNumber = true ∧ σ.parseState = [] ∧ ∃ lit, v = .number lit) := by
  obtain ⟨st, ps, lit, val⟩ := σ
  cases st <;> cases ps <;>
    simp [stepByte, stateBeginValue, stateBeginString, isSpace, stateEndValue, state0, endNumber,
      stateESign, expect, expectLast, expectHex, isDigit, isHex, Step.inNumber] at h ⊢ <;>
    first
    | (obtain ⟨h1, _⟩ := h; exact h1.symm)
    | (obtain ⟨h1, _⟩ := h; exact ⟨_, h1.symm⟩)

theorem decodeValue_rest (v : JSON) (r1 r2 : Bytes) :
    decodeValue (some (v, r1)) = decodeValue (some (v, r2)) := rfl

theorem decodeValue_scan_append (l : Bytes) : ∀ (σ : Scanner) (t : Bytes),
    scanValue σ l ≠ none →
    decodeValue (scanValue σ (l ++ t)) = decodeValue (scanValue σ l) := by
  induction l with
  | nil =>
    intro σ t h
    cases hs : stepByte σ ' '.toNat with
    | error => exact absurd (by simp only [scanValue, hs]) h
    | more s1 => exact absurd (by simp only [scanValue, hs]) h
    | done v b =>
      have hl : scanValue σ [] = some (v, []) := by simp only [scanValue, hs]
      rw [List.nil_append, hl]
      rcases stepByte_space_done σ v b hs with ⟨h1, h2, h3⟩ | ⟨h1, h2, lit, h3⟩
      · cases t with
        | nil => rw [hl]
        | cons c r =>
          have hc : stepByte σ c = .done σ.val false := by
            obtain ⟨st, ps, lit, val⟩ := σ
            simp only at h1 h2
            subst h1; subst h2
            rfl
          simp only [scanValue, hc, h3]
          rfl
      · rw [decodeValue_scan_inNumber t σ h1 h2, h3]
        rfl
  | cons c rest ih =>
    intro σ t h
    cases hs : stepByte σ c with
    | error => exact absurd (by simp only [scanValue, hs]) h
    | more s1 =>
      have h' : scanValue s1 rest ≠ none := by
        intro h0
        exact h (by simp only [scanValue, hs, h0])
      simp only [List.cons_append, scanValue, hs]
      exact ih s1 t h'
    | done v b =>
      simp only [List.cons_append, scanValue, hs]
      rfl

theorem signHandler_append (url : Bytes) (upstream : Upstream) (body t : Bytes)
    (h : readValue body ≠ none) :
    signHandler url upstream (body ++ t) = signHandler url upstream body := by
  apply signHandler_of_toOption
  rw [toOption_Decode, toOption_Decode]
  exact decodeValue_scan_append body Scanner.reset t h

end Web3SignerProxy

/-! ## The claims -/

namespace Web3SignerProxy

/-- Claim C1: for a body that decodes to a request with a non-empty `params.input`, the
handler makes one POST to the upstream whose body is the marshalled payload map; that map has
exactly the keys `jsonrpc`, `method`, `params`, `id`, holding the constant `2.0`, the
constant `eth_sign`, the list of the inbound address and input in that order, and the
inbound id, whatever the inbound `jsonrpc`, `method` and `params.data` are.  Read back as
JSON, the bytes posted are one object with these four members and nothing after it: the
literal of `id` parses to the inbound id, and the two string literals of `params` unquote to
the inbound address and input. -/
theorem sign_submits_translated_request (web3SignerURL : Bytes) (upstream : Upstream)
    (body : Bytes) (req : SignRequest) (hparse : Decode body = .ok req)
    (hinput : req.Params.Input ≠ []) :
    (signHandler web3SignerURL upstream body).calls =
      [.post web3SignerURL (ascii "application/json") (Marshal (payload req))] ∧
    (payload req).map (fun e => e.1) =
      [ascii "jsonrpc", ascii "method", ascii "params", ascii "id"] ∧
    lookup (payload req) (ascii "jsonrpc") = some (.string (ascii "2.0")) ∧
    lookup (payload req) (ascii "method") = some (.string (ascii "eth_sign")) ∧
    lookup (payload req) (ascii "params") =
      some (.slice [.string req.Params.Address, .string req.Params.Input]) ∧
    lookup (payload req) (ascii "id") = some (.int req.ID) ∧
    readValue (Marshal (payload req)) =
      some (.object [(ascii "id", .number (formatInt req.ID)),
        (ascii "jsonrpc", .string (ascii "2.0")),
        (ascii "method", .string (ascii "eth_sign")),
        (ascii "params", .array [.string (appendStringLoop 0 req.Params.Address),
          .string (appendStringLoop 0 req.Params.Input)])], []) ∧
    parseInt (formatInt req.ID) = some req.ID ∧
    unquote (appendStringLoop 0 req.Params.Address) = req.Params.Address ∧
    unquote (appendStringLoop 0 req.Params.Input) = req.Params.Input := by
  have hwf := Decode_wellFormed body req hparse
  exact ⟨signHandler_calls_of_input web3SignerURL upstream body req hparse hinput,
    rfl, rfl, rfl, rfl, rfl, readValue_Marshal_payload req,
    parseInt_formatInt req.ID ⟨hwf.2.2.2.2.2.1, hwf.2.2.2.2.2.2⟩,
    unquote_appendString _ hwf.2.2.1, unquote_appendString _ hwf.2.2.2.2.1⟩

/-- Scenario A instantiates claim C1. -/
theorem sign_submits_translated_request_witness :
    (signHandler exampleURL unreachable scenarioA).calls =
      [.post exampleURL (ascii "application/json") (Marshal (payload scenarioARequest))] ∧
    lookup (payload scenarioARequest) (ascii "method") = some (.string (ascii "eth_sign")) ∧
    lookup (payload scenarioARequest) (ascii "params") =
      some (.slice [.string (ascii "0xabc"), .string (ascii "0xdead")]) ∧
    lookup (payload scenarioARequest) (ascii "id") = some (.int 7) :=
  have h := sign_submits_translated_request exampleURL unreachable scenarioA scenarioARequest
    Decode_scenarioA (by decide)
  ⟨h.1, h.2.2.2.1, h.2.2.2.2.1, h.2.2.2.2.2.1⟩

/-- Claim C2: a body that decodes but leaves `params.input` empty (absent, `null` or the
empty string) is answered with status 400 and no outbound call, for every upstream; and
every call the handler ever makes is the POST of a decoded request whose input, the second
parameter, is not empty. -/
theorem sign_rejects_empty_input (web3SignerURL : Bytes) (upstream : Upstream) (body : Bytes) :
    (∀ req, Decode body = .ok req → req.Params.Input = [] →
      (signHandler web3SignerURL upstream body).w.code = 400 ∧
      (signHandler web3SignerURL upstream body).calls = []) ∧
    (∀ call, call ∈ (signHandler web3SignerURL upstream body).calls →
      ∃ req, Decode body = .ok req ∧ req.Params.Input ≠ [] ∧
        call = .post web3SignerURL (ascii "application/json") (Marshal (payload req)) ∧
        lookup (payload req) (ascii "params") =
          some (.slice [.string req.Params.Address, .string req.Params.Input])) := by
  constructor
  · intro req hparse hinput
    rw [signHandler_of_empty web3SignerURL upstream body req hparse hinput]
    exact ⟨rfl, rfl⟩
  · intro call hcall
    cases hparse : Decode body with
    | error e =>
      rw [signHandler_of_error web3SignerURL upstream body e hparse] at hcall
      simp at hcall
    | ok req =>
      by_cases hinput : req.Params.Input = []
      · rw [signHandler_of_empty web3SignerURL upstream body req hparse hinput] at hcall
        simp at hcall
      · rw [signHandler_calls_of_input web3SignerURL upstream body req hparse hinput] at hcall
        exact ⟨req, rfl, hinput, by simpa using hcall, rfl⟩

/-- A body without `params.input` instantiates claim C2. -/
theorem sign_rejects_empty_input_witness :
    (signHandler exampleURL (answering 200 []) noInputBody).w.code = 400 ∧
    (signHandler exampleURL (answering 200 []) noInputBody).calls = [] :=
  (sign_rejects_empty_input exampleURL (answering 200 []) noInputBody).1 noInputRequest
    Decode_noInputBody (by decide)

/-- Claim C3 fails as stated: a body that is not well-formed JSON, a complete request object
followed by other bytes, is decoded and forwarded; the answer is the upstream's (200 from
an upstream answering 200, 502 from an unreachable one), not a 400. -/
theorem sign_forwards_body_with_trailing_bytes :
    Valid trailingBody = false ∧
    (signHandler exampleURL (answering 200 [ascii "\x7b\x7d"]) trailingBody).calls =
      [.post exampleURL (ascii "application/json")
        (ascii "\x7b\"id\":7,\"jsonrpc\":\"2.0\",\"method\":\"eth_sign\",\"params\":[\"0xabc\",\"0xdead\"]\x7d")] ∧
    (signHandler exampleURL (answering 200 [ascii "\x7b\x7d"]) trailingBody).w.code = 200 ∧
    (signHandler exampleURL unreachable trailingBody).w.code = 502 := by
  refine ⟨by rfl, ?_, ?_, ?_⟩
  · rw [signHandler_calls_of_input exampleURL _ trailingBody trailingRequest Decode_trailingBody
      (by decide)]
    rfl
  · rw [signHandler_of_input exampleURL _ trailingBody trailingRequest Decode_trailingBody
      (by decide)]
    rfl
  · rw [signHandler_of_input exampleURL _ trailingBody trailingRequest Decode_trailingBody
      (by decide)]
    rfl

/-- Claim C3, amended: when the first JSON value of the body cannot be read (the body is
empty, malformed, or ends before that value is complete) or does not fit the shape of a
sign request (it is neither `null` nor an object, or a member that names a field holds a
value that is neither `null` nor of the type of that field), the handler answers 400 with
the plain-text message `invalid JSON` and a line feed, makes no outbound call, and does the
same for every upstream.  A first value that fits, `null` included, is decoded and goes on to
the check of the input: 400 `missing input field` when the input is empty, the POST when it
is not.  Whenever a first value can be read, the bytes after it change nothing in what the
handler does. -/
theorem sign_rejects_undecodable_body (web3SignerURL : Bytes) (upstream other : Upstream)
    (body : Bytes) :
    ((readValue body = none ∨
        ∃ v rest, readValue body = some (v, rest) ∧ fitsSignRequest v = false) →
      (signHandler web3SignerURL upstream body).w.code = 400 ∧
      (signHandler web3SignerURL upstream body).w.body = ascii "invalid JSON\n" ∧
      (signHandler web3SignerURL upstream body).w.get (ascii "Content-Type") =
        some (ascii "text/plain; charset=utf-8") ∧
      (signHandler web3SignerURL upstream body).calls = [] ∧
      signHandler web3SignerURL upstream body = signHandler web3SignerURL other body) ∧
    (∀ v rest, readValue body = some (v, rest) → fitsSignRequest v = true →
      ∃ req, Decode body = .ok req ∧
        (req.Params.Input = [] →
          (signHandler web3SignerURL upstream body).w.code = 400 ∧
          (signHandler web3SignerURL upstream body).w.body = ascii "missing input field\n" ∧
          (signHandler web3SignerURL upstream body).calls = []) ∧
        (req.Params.Input ≠ [] →
          (signHandler web3SignerURL upstream body).calls =
            [.post web3SignerURL (ascii "application/json") (Marshal (payload req))])) ∧
    (∀ v rest, readValue body = some (v, rest) → ∀ trailing,
      signHandler web3SignerURL upstream (body ++ trailing) =
        signHandler web3SignerURL upstream body) := by
  refine ⟨?_, ?_, ?_⟩
  · intro hbad
    have herr : ∃ e, Decode body = .error e := by
      rcases hbad with h | ⟨v, rest, h, ht⟩
      · exact ⟨.invalid, by simp [Decode, h]⟩
      · exact ⟨.typeMismatch, by simp [Decode, h, unmarshal_flag, ht]⟩
    obtain ⟨e, he⟩ := herr
    rw [signHandler_of_error web3SignerURL upstream body e he,
      signHandler_of_error web3SignerURL other body e he]
    exact ⟨rfl, rfl, rfl, rfl, rfl⟩
  · intro v rest h hfit
    have hd : Decode body = .ok (unmarshal v SignRequest.zero).1 := by
      simp [Decode, h, unmarshal_flag, hfit]
    refine ⟨_, hd, ?_, ?_⟩
    · intro hinput
      rw [signHandler_of_empty web3SignerURL upstream body _ hd hinput]
      exact ⟨rfl, rfl, rfl⟩
    · intro hinput
      exact signHandler_calls_of_input web3SignerURL upstream body _ hd hinput
  · intro v rest h trailing
    exact signHandler_append web3SignerURL upstream body trailing (by rw [h]; simp)

/-- A body whose `id` is a string is answered `invalid JSON`; a body whose `id` is `null` is
decoded; the body `null` is answered `missing input field`; and Scenario A followed by other
bytes is handled as Scenario A.  These instantiate the amended claim C3. -/
theorem sign_rejects_undecodable_body_witness :
    ((signHandler exampleURL unreachable stringIdBody).w.code = 400 ∧
      (signHandler exampleURL unreachable stringIdBody).w.body = ascii "invalid JSON\n" ∧
      (signHandler exampleURL unreachable stringIdBody).calls = []) ∧
    (∃ req, Decode nullIdBody = .ok req) ∧
    ((signHandler exampleURL unreachable (ascii "null")).w.code = 400 ∧
      (signHandler exampleURL unreachable (ascii "null")).w.body =
        ascii "missing input field\n") ∧
    signHandler exampleURL unreachable (scenarioA ++ ascii " this is not JSON") =
      signHandler exampleURL unreachable scenarioA := by
  have h1 := (sign_rejects_undecodable_body exampleURL unreachable (answering 200 [])
    stringIdBody).1 (Or.inr ⟨_, _, rfl, rfl⟩)
  have h2 := (sign_rejects_undecodable_body exampleURL unreachable (answering 200 [])
    nullIdBody).2.1 _ _ rfl rfl
  have h3 := (sign_rejects_undecodable_body exampleURL unreachable (answering 200 [])
    scenarioA).2.2 _ _ rfl (ascii " this is not JSON")
  have h4 := (sign_rejects_undecodable_body exampleURL unreachable (answering 200 [])
    (ascii "null")).2.1 _ _ rfl rfl
  refine ⟨⟨h1.1, h1.2.1, h1.2.2.2.1⟩, ?_, ?_, h3⟩
  · obtain ⟨req, h, _⟩ := h2
    exact ⟨req, h⟩
  · obtain ⟨req, h, hempty, _⟩ := h4
    have hz : Decode (ascii "null") = .ok SignRequest.zero := rfl
    rw [hz] at h
    cases h
    exact ⟨(hempty rfl).1, (hempty rfl).2.1⟩

/-- Claim C4: when a validated request cannot be delivered (the POST returns an error and no
response), the handler answers 502, not 400, with the plain-text message
`failed to contact web3signer`, and that one POST is the only outbound call. -/
theorem sign_reports_unreachable_upstream (web3SignerURL : Bytes) (upstream : Upstream)
    (body : Bytes) (req : SignRequest) (err : Bytes) (hparse : Decode body = .ok req)
    (hinput : req.Params.Input ≠ [])
    (hfail : upstream (.post web3SignerURL (ascii "application/json") (Marshal (payload req))) =
      .error err) :
    (signHandler web3SignerURL upstream body).w.code = 502 ∧
    (signHandler web3SignerURL upstream body).w.code ≠ 400 ∧
    (signHandler web3SignerURL upstream body).w.body = ascii "failed to contact web3signer\n" ∧
    (signHandler web3SignerURL upstream body).w.get (ascii "Content-Type") =
      some (ascii "text/plain; charset=utf-8") ∧
    (signHandler web3SignerURL upstream body).calls =
      [.post web3SignerURL (ascii "application/json") (Marshal (payload req))] ∧
    (signHandler web3SignerURL upstream body).calls.length = 1 := by
  rw [signHandler_of_input web3SignerURL upstream body req hparse hinput, hfail]
  exact ⟨rfl, by show (502 : Nat) ≠ 400; decide, rfl, rfl, rfl, rfl⟩

/-- Scenario A against an unreachable upstream instantiates claim C4. -/
theorem sign_reports_unreachable_upstream_witness :
    (signHandler exampleURL unreachable scenarioA).w.code = 502 ∧
    (signHandler exampleURL unreachable scenarioA).w.code ≠ 400 ∧
    (signHandler exampleURL unreachable scenarioA).w.body =
      ascii "failed to contact web3signer\n" ∧
    (signHandler exampleURL unreachable scenarioA).w.get (ascii "Content-Type") =
      some (ascii "text/plain; charset=utf-8") ∧
    (signHandler exampleURL unreachable scenarioA).calls =
      [.post exampleURL (ascii "application/json") (Marshal (payload scenarioARequest))] ∧
    (signHandler exampleURL unreachable scenarioA).calls.length = 1 :=
  sign_reports_unreachable_upstream exampleURL unreachable scenarioA scenarioARequest
    (ascii "dial tcp: connection refused") Decode_scenarioA (by decide) rfl

/-- Claim C5: when the POST of a validated request returns a response, whatever its status
code, the handler answers with that status code and with exactly the bytes the response
body delivers. -/
theorem sign_relays_upstream_response (web3SignerURL : Bytes) (upstream : Upstream)
    (body : Bytes) (req : SignRequest) (resp : UpstreamResponse)
    (hparse : Decode body = .ok req) (hinput : req.Params.Input ≠ [])
    (hresp : upstream (.post web3SignerURL (ascii "application/json") (Marshal (payload req))) =
      .ok resp) :
    (signHandler web3SignerURL upstream body).w.code = resp.StatusCode ∧
    (signHandler web3SignerURL upstream body).w.body = resp.Body.bytes := by
  rw [signHandler_of_input web3SignerURL upstream body req hparse hinput, hresp]
  have hs : ((ResponseWriter.new.setHeader (ascii "Content-Type")
      (ascii "application/json")).WriteHeader resp.StatusCode).status = some resp.StatusCode := rfl
  constructor
  · show ResponseWriter.code (ioCopy _ resp.Body.chunks) = resp.StatusCode
    unfold ResponseWriter.code
    rw [ioCopy_status _ _ _ hs]
    rfl
  · show (ioCopy _ resp.Body.chunks).body = resp.Body.bytes
    rw [ioCopy_body _ _ _ hs]
    simp [Body.bytes, ResponseWriter.WriteHeader, ResponseWriter.setHeader, ResponseWriter.new]

/-- Scenario A against an upstream that answers 500 with an error body, delivered in two
reads, instantiates claim C5. -/
theorem sign_relays_upstream_response_witness :
    (signHandler exampleURL (answering 500 [ascii "\x7b\"error\":", ascii "\"boom\"\x7d"])
      scenarioA).w.code = 500 ∧
    (signHandler exampleURL (answering 500 [ascii "\x7b\"error\":", ascii "\"boom\"\x7d"])
      scenarioA).w.body = ascii "\x7b\"error\":\"boom\"\x7d" :=
  sign_relays_upstream_response exampleURL
    (answering 500 [ascii "\x7b\"error\":", ascii "\"boom\"\x7d"]) scenarioA scenarioARequest
    { StatusCode := 500, Body := { chunks := [ascii "\x7b\"error\":", ascii "\"boom\"\x7d"], failed := false } }
    Decode_scenarioA (by decide) rfl

end Web3SignerProxy

namespace Web3SignerProxy

/-- Claim C6: when the GET to the upstream endpoint followed by `/upcheck` returns a response
with status 200, `/healthz` answers 200 with the two bytes `ok`; that GET, on a client with
a timeout of two seconds, is the only outbound call. -/
theorem healthz_reports_ok (web3SignerURL : Bytes) (upstream : Upstream)
    (resp : UpstreamResponse)
    (hresp : upstream (.get (web3SignerURL ++ ascii "/upcheck") 2) = .ok resp)
    (hstatus : resp.StatusCode = 200) :
    (healthzHandler web3SignerURL upstream).w.code = 200 ∧
    (healthzHandler web3SignerURL upstream).w.body = ascii "ok" ∧
    (healthzHandler web3SignerURL upstream).w.body.length = 2 ∧
    (healthzHandler web3SignerURL upstream).calls =
      [.get (web3SignerURL ++ ascii "/upcheck") 2] := by
  simp only [healthzHandler, hresp, hstatus]
  exact ⟨rfl, rfl, rfl, rfl⟩

/-- An upstream answering 200 instantiates claim C6. -/
theorem healthz_reports_ok_witness :
    (healthzHandler exampleURL (answering 200 [ascii "OK"])).w.code = 200 ∧
    (healthzHandler exampleURL (answering 200 [ascii "OK"])).w.body = ascii "ok" ∧
    (healthzHandler exampleURL (answering 200 [ascii "OK"])).w.body.length = 2 ∧
    (healthzHandler exampleURL (answering 200 [ascii "OK"])).calls =
      [.get (exampleURL ++ ascii "/upcheck") 2] :=
  healthz_reports_ok exampleURL (answering 200 [ascii "OK"])
    { StatusCode := 200, Body := { chunks := [ascii "OK"], failed := false } } rfl rfl

/-- Claim C7 fails as stated: against an unreachable upstream the body of the 503 answer is
not exactly `unhealthy`; `http.Error` writes the message followed by a line feed. -/
theorem healthz_unhealthy_body_ends_with_line_feed :
    (healthzHandler exampleURL unreachable).w.code = 503 ∧
    (healthzHandler exampleURL unreachable).w.body = ascii "unhealthy\n" ∧
    (healthzHandler exampleURL unreachable).w.body ≠ ascii "unhealthy" := by
  refine ⟨by rfl, by rfl, ?_⟩
  decide

/-- Claim C7, amended: when the liveness GET ends in an error (transport error or timeout) or
returns a status other than 200, `/healthz` answers 503 with the ten bytes `unhealthy` and a
line feed; and the answer is 200 exactly when the upstream answered 200. -/
theorem healthz_reports_unhealthy (web3SignerURL : Bytes) (upstream : Upstream) :
    (((∃ err, upstream (.get (web3SignerURL ++ ascii "/upcheck") 2) = .error err) ∨
      (∃ resp, upstream (.get (web3SignerURL ++ ascii "/upcheck") 2) = .ok resp ∧
        resp.StatusCode ≠ 200)) →
      (healthzHandler web3SignerURL upstream).w.code = 503 ∧
      (healthzHandler web3SignerURL upstream).w.body = ascii "unhealthy\n") ∧
    ((healthzHandler web3SignerURL upstream).w.code = 200 ↔
      ∃ resp, upstream (.get (web3SignerURL ++ ascii "/upcheck") 2) = .ok resp ∧
        resp.StatusCode = 200) := by
  cases hup : upstream (.get (web3SignerURL ++ ascii "/upcheck") 2) with
  | error err =>
    have hh : healthzHandler web3SignerURL upstream =
        { w := Error .new (ascii "unhealthy") 503,
          calls := [.get (web3SignerURL ++ ascii "/upcheck") 2] } := by
      simp only [healthzHandler, hup]
    rw [hh]
    refine ⟨fun _ => ⟨rfl, rfl⟩, ?_⟩
    constructor
    · intro h
      exact absurd h (by show (503 : Nat) ≠ 200; decide)
    · rintro ⟨resp, h, _⟩
      cases h
  | ok resp =>
    by_cases hs : resp.StatusCode = 200
    · have hh : healthzHandler web3SignerURL upstream =
          { w := (ResponseWriter.new.WriteHeader 200).Write (ascii "ok"),
            calls := [.get (web3SignerURL ++ ascii "/upcheck") 2] } := by
        simp only [healthzHandler, hup, hs, ne_eq, not_true_eq_false, if_false]
      rw [hh]
      refine ⟨?_, ?_⟩
      · rintro (⟨err, h⟩ | ⟨r, h, hr⟩)
        · cases h
        · cases h
          exact absurd hs hr
      · exact ⟨fun _ => ⟨resp, rfl, hs⟩, fun _ => rfl⟩
    · have hh : healthzHandler web3SignerURL upstream =
          { w := Error .new (ascii "unhealthy") 503,
            calls := [.get (web3SignerURL ++ ascii "/upcheck") 2] } := by
        simp only [healthzHandler, hup, hs, ne_eq, not_false_eq_true, if_true]
      rw [hh]
      refine ⟨fun _ => ⟨rfl, rfl⟩, ?_⟩
      constructor
      · intro h
        exact absurd h (by show (503 : Nat) ≠ 200; decide)
      · rintro ⟨r, h, hr⟩
        cases h
        exact absurd hr hs

/-- An upstream answering 204 instantiates the amended claim C7. -/
theorem healthz_reports_unhealthy_witness :
    (healthzHandler exampleURL (answering 204 [])).w.code = 503 ∧
    (healthzHandler exampleURL (answering 204 [])).w.body = ascii "unhealthy\n" :=
  (healthz_reports_unhealthy exampleURL (answering 204 [])).1
    (Or.inr ⟨{ StatusCode := 204, Body := { chunks := [], failed := false } }, rfl, by decide⟩)

/-- Claim C8 fails as stated: for Scenario A the body POSTed to the upstream starts with the
member `id`, since `json.Marshal` writes the members of a map sorted by key; it is not the
text with `jsonrpc` first and `id` last. -/
theorem sign_scenarioA_body_is_sorted_by_key :
    (signHandler exampleURL unreachable scenarioA).calls =
      [.post exampleURL (ascii "application/json")
        (ascii "\x7b\"id\":7,\"jsonrpc\":\"2.0\",\"method\":\"eth_sign\",\"params\":[\"0xabc\",\"0xdead\"]\x7d")] ∧
    (signHandler exampleURL unreachable scenarioA).calls ≠
      [.post exampleURL (ascii "application/json")
        (ascii "\x7b\"jsonrpc\":\"2.0\",\"method\":\"eth_sign\",\"params\":[\"0xabc\",\"0xdead\"],\"id\":7\x7d")] := by
  have h : (signHandler exampleURL unreachable scenarioA).calls =
      [.post exampleURL (ascii "application/json")
        (ascii "\x7b\"id\":7,\"jsonrpc\":\"2.0\",\"method\":\"eth_sign\",\"params\":[\"0xabc\",\"0xdead\"]\x7d")] := by
    rw [signHandler_calls_of_input exampleURL _ scenarioA scenarioARequest Decode_scenarioA
      (by decide)]
    rfl
  refine ⟨h, ?_⟩
  rw [h]
  decide

/-- Claim C8, amended: for every request that decodes with a non-empty input, the body
POSTed to the upstream is the JSON text
`{"id":<id>,"jsonrpc":"2.0","method":"eth_sign","params":[<address>,<input>]}`: the members
in the order of their keys, no white space, address and input as JSON string literals and
the id in decimal; and this text is well-formed JSON. -/
theorem sign_outbound_body_text (web3SignerURL : Bytes) (upstream : Upstream) (body : Bytes)
    (req : SignRequest) (hparse : Decode body = .ok req) (hinput : req.Params.Input ≠ []) :
    (signHandler web3SignerURL upstream body).calls =
      [.post web3SignerURL (ascii "application/json")
        (ascii "\x7b\"id\":" ++ formatInt req.ID ++
          ascii ",\"jsonrpc\":\"2.0\",\"method\":\"eth_sign\",\"params\":[" ++
          appendString req.Params.Address ++ ascii "," ++ appendString req.Params.Input ++
          ascii "]\x7d")] ∧
    Valid (ascii "\x7b\"id\":" ++ formatInt req.ID ++
      ascii ",\"jsonrpc\":\"2.0\",\"method\":\"eth_sign\",\"params\":[" ++
      appendString req.Params.Address ++ ascii "," ++ appendString req.Params.Input ++
      ascii "]\x7d") = true := by
  rw [signHandler_calls_of_input web3SignerURL upstream body req hparse hinput,
    ← Marshal_payload req]
  exact ⟨rfl, Valid_Marshal_payload req⟩

/-- Scenario A instantiates the amended claim C8. -/
theorem sign_outbound_body_text_witness :
    (signHandler exampleURL (answering 200 []) scenarioA).calls =
      [.post exampleURL (ascii "application/json")
        (ascii "\x7b\"id\":" ++ formatInt 7 ++
          ascii ",\"jsonrpc\":\"2.0\",\"method\":\"eth_sign\",\"params\":[" ++
          appendString (ascii "0xabc") ++ ascii "," ++ appendString (ascii "0xdead") ++
          ascii "]\x7d")] :=
  (sign_outbound_body_text exampleURL (answering 200 []) scenarioA scenarioARequest
    Decode_scenarioA (by decide)).1

/-- Claim C9: two bodies that decode to requests with the same address, the same non-empty
input and the same id lead to the same outbound calls, whatever their `jsonrpc`, `method`
and `params.data` are and whatever the upstream does. -/
theorem sign_outbound_depends_on_three_fields (web3SignerURL : Bytes)
    (upstream1 upstream2 : Upstream) (body1 body2 : Bytes) (req1 req2 : SignRequest)
    (hparse1 : Decode body1 = .ok req1) (hparse2 : Decode body2 = .ok req2)
    (hinput : req1.Params.Input ≠ [])
    (haddress : req1.Params.Address = req2.Params.Address)
    (hsame : req1.Params.Input = req2.Params.Input) (hid : req1.ID = req2.ID) :
    (signHandler web3SignerURL upstream1 body1).calls =
      (signHandler web3SignerURL upstream2 body2).calls ∧
    payload req1 = payload req2 := by
  have hp : payload req1 = payload req2 := by
    simp only [payload, haddress, hsame, hid]
  rw [signHandler_calls_of_input web3SignerURL upstream1 body1 req1 hparse1 hinput,
    signHandler_calls_of_input web3SignerURL upstream2 body2 req2 hparse2 (hsame ▸ hinput), hp]
  exact ⟨rfl, rfl⟩

/-- Scenario A and a body with another protocol tag, method and `data` instantiate
claim C9. -/
theorem sign_outbound_depends_on_three_fields_witness :
    (signHandler exampleURL unreachable scenarioA).calls =
      (signHandler exampleURL (answering 200 []) scenarioAVariant).calls ∧
    payload scenarioARequest = payload scenarioAVariantRequest :=
  sign_outbound_depends_on_three_fields exampleURL unreachable (answering 200 [])
    scenarioA scenarioAVariant scenarioARequest scenarioAVariantRequest
    Decode_scenarioA Decode_scenarioAVariant (by decide) rfl rfl rfl

/-- Claim C10: if `WEB3SIGNER_URL` is unset or empty, `main` panics before it registers a
handler or listens; otherwise both handlers are registered for the value of that variable,
and `main` listens on the port given by `PORT` when that is set and not empty and on port
9000 when it is not. -/
theorem main_resolves_configuration (env : Bytes → Option Bytes) :
    ((env (ascii "WEB3SIGNER_URL") = none ∨ env (ascii "WEB3SIGNER_URL") = some []) →
      (main env).events = [.panic (ascii "WEB3SIGNER_URL environment variable is not set")] ∧
      (main env).mux = [] ∧ (main env).listening = none) ∧
    (∀ url, env (ascii "WEB3SIGNER_URL") = some url → url ≠ [] →
      (main env).mux = [(ascii "/sign", signHandler url),
        (ascii "/healthz", fun upstream _ => healthzHandler url upstream)] ∧
      (∀ msg, Event.panic msg ∉ (main env).events) ∧
      (∀ port, env (ascii "PORT") = some port → port ≠ [] →
        (main env).listening = some (ascii ":" ++ port) ∧
        Event.listenAndServe (ascii ":" ++ port) ∈ (main env).events) ∧
      ((env (ascii "PORT") = none ∨ env (ascii "PORT") = some []) →
        (main env).listening = some (ascii ":9000") ∧
        Event.listenAndServe (ascii ":9000") ∈ (main env).events)) := by
  constructor
  · intro h
    have hurl : Getenv env (ascii "WEB3SIGNER_URL") = [] := by
      rcases h with h | h <;> simp [Getenv, h]
    simp only [main, hurl, if_true, and_self]
  · intro url hset hne
    have hurl : Getenv env (ascii "WEB3SIGNER_URL") = url := by simp [Getenv, hset]
    have hm : main env =
        { events :=
            (if Getenv env (ascii "PORT") = [] then
              [.info (ascii "PORT environment variable not set, defaulting to 9000") []] else [])
            ++ [.handleFunc (ascii "/sign"), .handleFunc (ascii "/healthz"),
                .info (ascii "starting web3signer proxy")
                  [(ascii "port", resolvePort env), (ascii "web3signerURL", url)],
                .listenAndServe (ascii ":" ++ resolvePort env)],
          mux := [(ascii "/sign", signHandler url),
                  (ascii "/healthz", fun upstream _ => healthzHandler url upstream)],
          listening := some (ascii ":" ++ resolvePort env) } := by
      simp only [main, hurl, if_neg hne]
    rw [hm]
    refine ⟨rfl, ?_, ?_, ?_⟩
    · intro msg hmem
      by_cases hp : Getenv env (ascii "PORT") = [] <;> simp [hp] at hmem
    · intro port hport hpne
      have hp : resolvePort env = port := by simp [resolvePort, Getenv, hport, hpne]
      simp [hp]
    · intro h
      have hp : resolvePort env = ascii "9000" := by
        rcases h with h | h <;> simp [resolvePort, Getenv, h]
      have hc : ascii ":" ++ ascii "9000" = ascii ":9000" := by rfl
      simp [hp, hc]

/-- An environment with only the upstream endpoint set instantiates claim C10: the handlers
are registered for it and the port is 9000. -/
theorem main_resolves_configuration_witness :
    (main envURLOnly).mux = [(ascii "/sign", signHandler exampleURL),
      (ascii "/healthz", fun upstream _ => healthzHandler exampleURL upstream)] ∧
    (main envURLOnly).listening = some (ascii ":9000") ∧
    ((main envEmpty).events =
        [.panic (ascii "WEB3SIGNER_URL environment variable is not set")] ∧
      (main envEmpty).mux = [] ∧ (main envEmpty).listening = none) ∧
    (main envURLAndPort).listening = some (ascii ":8545") :=
  ⟨((main_resolves_configuration envURLOnly).2 exampleURL (by rfl) (by decide)).1,
    (((main_resolves_configuration envURLOnly).2 exampleURL (by rfl) (by decide)).2.2.2
      (Or.inl (by rfl))).1,
    (main_resolves_configuration envEmpty).1 (Or.inl rfl),
    (((main_resolves_configuration envURLAndPort).2 exampleURL (by rfl) (by decide)).2.2.1
      (ascii "8545") (by rfl) (by decide)).1⟩

end Web3SignerProxy
